import Mathlib

set_option maxRecDepth 8192

/-!
Verification of the catalog-metadata model and the bundle dependency
closure builder of the operator-controller resolution core.

The bundle metadata model (lazy, cached accessors over an untyped
property bag) is embedded from `internal/catalogmetadata/types.go`.
The Go `sync.RWMutex`-guarded lazy caches become an explicit cache
state threaded through each accessor; every parsing step additionally
reports how many decode / semver-parse / range-parse invocations it
performed, so that "no re-parsing" claims are directly statable.

The dependency closure builder (`MakeBundleVariables` and friends) is
not part of the available sources; only its tests are.  It is modelled
from the specification (breadth-first queue walk with a visited set,
per-constraint catalog matching, version-descending stable ordering,
fail-fast dependency-not-found errors), with the concrete error-message
strings taken from the assertions in
`internal/resolution/variablesources/bundle_test.go`.
-/

/-- Parsed semantic version.  Models the numeric `Major.Minor.Patch`
core of `blang/semver.Version`; pre-release and build metadata are not
used by any bundle in this repository. -/
structure SemVer where
  major : Nat
  minor : Nat
  patch : Nat
deriving DecidableEq, Repr, BEq

/-- Lexicographic strict order on semantic versions, as
`blang/semver.Version.LT`. -/
def semverLt (a b : SemVer) : Bool :=
  decide (a.major < b.major) ||
    (decide (a.major = b.major) &&
      (decide (a.minor < b.minor) ||
        (decide (a.minor = b.minor) && decide (a.patch < b.patch))))

/-- Split a character list at every occurrence of a separator
(structural-recursion counterpart of `String.splitOn` for a one-character
separator). -/
def splitOnChar (sep : Char) : List Char → List (List Char)
  | [] => [[]]
  | c :: rest =>
    match splitOnChar sep rest with
    | [] => [[c]]
    | g :: gs => if c == sep then [] :: g :: gs else (c :: g) :: gs

/-- Accumulate decimal digits into a number; fails at the first
non-digit character. -/
def digitsToNat (acc : Nat) : List Char → Option Nat
  | [] => some acc
  | c :: cs => if c.isDigit then digitsToNat (acc * 10 + (c.toNat - 48)) cs else none

/-- Decimal reading of a non-empty all-digit character list. -/
def charsToNat? (cs : List Char) : Option Nat :=
  if cs.isEmpty then none else digitsToNat 0 cs

/-- Parse of `blang/semver.Parse` restricted to the numeric
`Major.Minor.Patch` form: exactly three dot-separated non-empty decimal
components.  Anything else is a deterministic parse error. -/
def parseSemVerChars (cs : List Char) : Except String SemVer :=
  match splitOnChar '.' cs with
  | [a, b, c] =>
    match charsToNat? a, charsToNat? b, charsToNat? c with
    | some x, some y, some z => .ok ⟨x, y, z⟩
    | _, _, _ => .error "Invalid character(s) found in number"
  | _ => .error "No Major.Minor.Patch elements found"

/-- Parse a version string. -/
def parseSemVer (s : String) : Except String SemVer :=
  parseSemVerChars s.data

/-- Comparator operators understood by `blang/semver.ParseRange`. -/
inductive CmpOp where
  | ge
  | gt
  | le
  | lt
  | eq
  | ne
deriving DecidableEq, Repr

/-- One comparator of a parsed version range. -/
structure Comparator where
  op : CmpOp
  ver : SemVer
deriving DecidableEq, Repr

/-- Evaluate one comparator against a candidate version `v`. -/
def evalCmp : CmpOp → SemVer → SemVer → Bool
  | .ge, cv, v => !(semverLt v cv)
  | .gt, cv, v => semverLt cv v
  | .le, cv, v => !(semverLt cv v)
  | .lt, cv, v => semverLt v cv
  | .eq, cv, v => v == cv
  | .ne, cv, v => !(v == cv)

/-- Parse a single comparator token such as `>=1.0.0`. -/
def parseComparator (tok : List Char) : Except String Comparator :=
  match tok with
  | '>' :: '=' :: rest => (parseSemVerChars rest).map (⟨.ge, ·⟩)
  | '<' :: '=' :: rest => (parseSemVerChars rest).map (⟨.le, ·⟩)
  | '=' :: '=' :: rest => (parseSemVerChars rest).map (⟨.eq, ·⟩)
  | '!' :: '=' :: rest => (parseSemVerChars rest).map (⟨.ne, ·⟩)
  | '>' :: rest => (parseSemVerChars rest).map (⟨.gt, ·⟩)
  | '<' :: rest => (parseSemVerChars rest).map (⟨.lt, ·⟩)
  | '=' :: rest => (parseSemVerChars rest).map (⟨.eq, ·⟩)
  | _ => (parseSemVerChars tok).map (⟨.eq, ·⟩)

/-- Parse all comparator tokens of a range expression. -/
def parseComparators : List (List Char) → Except String (List Comparator)
  | [] => .ok []
  | t :: ts =>
    match parseComparator t with
    | .error e => .error e
    | .ok c => (parseComparators ts).map (c :: ·)

/-- Model of `blang/semver.ParseRange` for the conjunctive
(space-separated) range expressions used by this repository, such as
`>=1.0.0 <2.0.0`: the conjunction of the parsed comparators. -/
def parseRange (s : String) : Except String (List Comparator) :=
  let toks := (splitOnChar ' ' s.data).filter (fun t => !t.isEmpty)
  if toks.isEmpty then .error "Could not get version from string"
  else parseComparators toks

/-- A version satisfies a parsed range when it satisfies every
comparator of the conjunction. -/
def rangeSatisfied (cs : List Comparator) (v : SemVer) : Bool :=
  cs.all (fun c => evalCmp c.op c.ver v)

/-- Untyped property payload: the raw JSON value of one entry of a
bundle's property bag, pre-classified by its JSON shape.  `pkg` is an
`olm.package` object, `pkgRequired` an `olm.package.required` object,
`str` a JSON string, and `raw` any other payload (such as the GVK
objects/arrays), which none of the typed decoders accept. -/
inductive PropValue where
  | pkg (packageName version : String)
  | pkgRequired (packageName versionRange : String)
  | str (s : String)
  | raw (s : String)
deriving DecidableEq, Repr

/-- One entry of a bundle's property list: a type tag plus payload,
after `declcfg.Bundle.Properties`. -/
structure Property where
  type : String
  value : PropValue
deriving DecidableEq, Repr

/-- `property.TypePackage`. -/
def TypePackage : String := "olm.package"

/-- `property.TypePackageRequired`. -/
def TypePackageRequired : String := "olm.package.required"

/-- `property.TypeGVKRequired`. -/
def TypeGVKRequired : String := "olm.gvk.required"

/-- `catalogmetadata.PropertyBundleMediaType`. -/
def PropertyBundleMediaType : String := "olm.bundle.mediatype"

/-- Decoded `property.Package` payload (package identity). -/
structure PropPackage where
  packageName : String
  version : String
deriving DecidableEq, Repr

/-- `catalogmetadata.PackageRequired`: the raw required-package
declaration plus its parsed range (`SemverRange`, not part of the JSON
payload and left empty by the decoder). -/
structure PackageRequired where
  packageName : String
  versionRange : String
  semverRange : List Comparator
deriving DecidableEq, Repr

/-- `json.Unmarshal` into `property.Package`: accepts exactly the
package-identity payload shape. -/
def decodePackage : PropValue → Except String PropPackage
  | .pkg n v => .ok ⟨n, v⟩
  | _ => .error "cannot unmarshal value into Go value of type property.Package"

/-- `json.Unmarshal` into `catalogmetadata.PackageRequired` (the
`SemverRange` field carries the JSON tag `-` and stays empty). -/
def decodePackageRequired : PropValue → Except String PackageRequired
  | .pkgRequired n r => .ok ⟨n, r, []⟩
  | _ => .error "cannot unmarshal value into Go value of type catalogmetadata.PackageRequired"

/-- `json.Unmarshal` into `string`. -/
def decodeString : PropValue → Except String String
  | .str s => .ok s
  | _ => .error "cannot unmarshal value into Go value of type string"

/-- `catalogmetadata.Channel` (only its name is used). -/
structure Channel where
  name : String
deriving DecidableEq, Repr

/-- Immutable part of `catalogmetadata.Bundle`: the embedded
`declcfg.Bundle` fields used by this core (`Name`, `Package`,
`Properties`), the catalog name and the channel memberships. -/
structure Bundle where
  Name : String
  Package : String
  CatalogName : String
  Properties : List Property
  InChannels : List Channel
deriving DecidableEq, Repr

/-- The lazily populated cache of a `catalogmetadata.Bundle`: the
`propertiesMap`, `bundlePackage`, `semVersion`, `requiredPackages` and
`mediaType` fields, each `none` while still unset (Go `nil`).
Go's nil slice for `requiredPackages` is `none`; a non-empty cached
slice is `some`. -/
structure Cache where
  propertiesMap : Option (List (String × List Property))
  bundlePackage : Option PropPackage
  semVersion : Option SemVer
  requiredPackages : Option (List PackageRequired)
  mediaType : Option String
deriving DecidableEq, Repr

/-- The all-`nil` cache of a freshly constructed bundle. -/
def initCache : Cache := ⟨none, none, none, none, none⟩

/-- Number of `json.Unmarshal`, `semver.Parse` and `semver.ParseRange`
invocations performed by one accessor call (observability instrument
for the "no re-parsing" contract). -/
structure Counters where
  decodes : Nat
  semverParses : Nat
  rangeParses : Nat
deriving DecidableEq, Repr

/-- No parsing work at all. -/
def zeroCtr : Counters := ⟨0, 0, 0⟩

/-- Result of one stateful accessor call: the updated cache, the parse
work performed by this call, and the returned value or error. -/
structure Step (α : Type) where
  cache : Cache
  ctr : Counters
  out : Except String α
deriving Repr

/-- Append a property to the bucket of its type tag (first matching
bucket), creating the bucket if absent; one step of building the Go
`propertiesMap`. -/
def addProp (m : List (String × List Property)) (p : Property) : List (String × List Property) :=
  match m with
  | [] => [(p.type, [p])]
  | (t, ps) :: rest =>
    if t == p.type then (t, ps ++ [p]) :: rest else (t, ps) :: addProp rest p

/-- Build the by-type property map in property-list scan order, as the
loop in `Bundle.propertiesByType`. -/
def buildPropertiesMap (props : List Property) : List (String × List Property) :=
  props.foldl addProp []

/-- Look up the bucket of a type tag (empty when absent, as a Go map
read of a missing key). -/
def lookupProps (m : List (String × List Property)) (t : String) : List Property :=
  match m with
  | [] => []
  | (t₀, ps) :: rest => if t₀ == t then ps else lookupProps rest t

/-- `Bundle.propertiesByType`: memoize the by-type map on first use,
then answer from it. -/
def propertiesByType (b : Bundle) (c : Cache) (t : String) : Cache × List Property :=
  match c.propertiesMap with
  | some m => (c, lookupProps m t)
  | none =>
    let m := buildPropertiesMap b.Properties
    ({ c with propertiesMap := some m }, lookupProps m t)

/-- Decode every property of one bucket in order, stopping at the
first failure; returns the number of decode invocations performed and
the decoded list or the error, as the loop in `loadFromProps`. -/
def decodeProps (dec : PropValue → Except String α) (t : String) :
    List Property → Nat × Except String (List α)
  | [] => (0, .ok [])
  | p :: ps =>
    match dec p.value with
    | .error e => (1, .error ("property \"" ++ t ++ "\" could not be parsed: " ++ e))
    | .ok a =>
      let (n, r) := decodeProps dec t ps
      (n + 1, match r with
        | .ok as => .ok (a :: as)
        | .error e => .error e)

/-- `loadFromProps`: all properties of one type decoded as `α`.  An
empty bucket is an error for a required property and an empty result
otherwise. -/
def loadFromProps (dec : PropValue → Except String α) (b : Bundle) (c : Cache)
    (t : String) (required : Bool) : Step (List α) :=
  let (c₁, props) := propertiesByType b c t
  if props.isEmpty then
    if required then ⟨c₁, zeroCtr, .error ("bundle property with type \"" ++ t ++ "\" not found")⟩
    else ⟨c₁, zeroCtr, .ok []⟩
  else
    let (n, r) := decodeProps dec t props
    ⟨c₁, { zeroCtr with decodes := n }, r⟩

/-- `loadOneFromProps`: the single property of one type.  More than one
instance is an error; zero instances yield the zero value when the
property is optional. -/
def loadOneFromProps (dec : PropValue → Except String α) (dflt : α) (b : Bundle) (c : Cache)
    (t : String) (required : Bool) : Step α :=
  match loadFromProps dec b c t required with
  | ⟨c₁, k, .error e⟩ => ⟨c₁, k, .error e⟩
  | ⟨c₁, k, .ok r⟩ =>
    if r.length > 1 then
      ⟨c₁, k, .error ("expected 1 instance of property with type \"" ++ t ++ "\", got "
        ++ toString r.length)⟩
    else if !required && r.isEmpty then ⟨c₁, k, .ok dflt⟩
    else
      match r with
      | x :: _ => ⟨c₁, k, .ok x⟩
      | [] => ⟨c₁, k, .error "index out of range"⟩

/-- `Bundle.loadPackage`: memoize the decoded package-identity property
(required, single-valued), then memoize its parsed semantic version.
On a semver parse failure the decoded property stays cached but the
version slot stays unset. -/
def loadPackage (b : Bundle) (c : Cache) : Step Unit :=
  let step1 : Cache × Counters × Except String PropPackage :=
    match c.bundlePackage with
    | some p => (c, zeroCtr, .ok p)
    | none =>
      match loadOneFromProps decodePackage ⟨"", ""⟩ b c TypePackage true with
      | ⟨c₁, k₁, .error e⟩ => (c₁, k₁, .error e)
      | ⟨c₁, k₁, .ok p⟩ => ({ c₁ with bundlePackage := some p }, k₁, .ok p)
  match step1 with
  | (c₂, k₁, .error e) => ⟨c₂, k₁, .error e⟩
  | (c₂, k₁, .ok p) =>
    match c₂.semVersion with
    | some _ => ⟨c₂, k₁, .ok ()⟩
    | none =>
      let k₂ := { k₁ with semverParses := k₁.semverParses + 1 }
      match parseSemVer p.version with
      | .error e =>
        ⟨c₂, k₂, .error ("could not parse semver \"" ++ p.version ++ "\" for bundle \""
          ++ b.Name ++ "\": " ++ e)⟩
      | .ok v => ⟨{ c₂ with semVersion := some v }, k₂, .ok ()⟩

/-- `Bundle.Version`. -/
def Version (b : Bundle) (c : Cache) : Step SemVer :=
  match loadPackage b c with
  | ⟨c₁, k, .error e⟩ => ⟨c₁, k, .error e⟩
  | ⟨c₁, k, .ok _⟩ => ⟨c₁, k, .ok (c₁.semVersion.getD ⟨0, 0, 0⟩)⟩

/-- Parse the version range of every decoded required-package
declaration in order, stopping at the first failure; also counts the
`semver.ParseRange` invocations. -/
def parseReqRanges (name : String) :
    List PackageRequired → Nat × Except String (List PackageRequired)
  | [] => (0, .ok [])
  | r :: rest =>
    match parseRange r.versionRange with
    | .error e =>
      (1, .error ("error parsing bundle required package semver range for bundle \"" ++ name
        ++ "\" (required package \"" ++ r.packageName ++ "\"): " ++ e))
    | .ok rng =>
      let (n, res) := parseReqRanges name rest
      (n + 1, match res with
        | .ok rs => .ok ({ r with semverRange := rng } :: rs)
        | .error e => .error e)

/-- `Bundle.loadRequiredPackages`: decode the (optional, repeated)
required-package properties and parse each declared range.  Go assigns
the resulting slice to the cache field, so a bundle without any
required-package property assigns `nil` and the slot stays unset. -/
def loadRequiredPackages (b : Bundle) (c : Cache) : Step Unit :=
  match c.requiredPackages with
  | some _ => ⟨c, zeroCtr, .ok ()⟩
  | none =>
    match loadFromProps decodePackageRequired b c TypePackageRequired false with
    | ⟨c₁, k₁, .error e⟩ =>
      ⟨c₁, k₁, .error ("error determining bundle required packages for bundle \"" ++ b.Name
        ++ "\": " ++ e)⟩
    | ⟨c₁, k₁, .ok rs⟩ =>
      let (n, res) := parseReqRanges b.Name rs
      let k₂ := { k₁ with rangeParses := n }
      match res with
      | .error e => ⟨c₁, k₂, .error e⟩
      | .ok rs₂ =>
        ⟨{ c₁ with requiredPackages := if rs₂.isEmpty then none else some rs₂ }, k₂, .ok ()⟩

/-- `Bundle.RequiredPackages` (a still-unset slot reads back as the
empty list, Go's nil slice). -/
def RequiredPackages (b : Bundle) (c : Cache) : Step (List PackageRequired) :=
  match loadRequiredPackages b c with
  | ⟨c₁, k, .error e⟩ => ⟨c₁, k, .error e⟩
  | ⟨c₁, k, .ok _⟩ => ⟨c₁, k, .ok (c₁.requiredPackages.getD [])⟩

/-- `Bundle.loadMediaType`: memoize the optional single-valued
media-type property (the empty string when absent). -/
def loadMediaType (b : Bundle) (c : Cache) : Step Unit :=
  match c.mediaType with
  | some _ => ⟨c, zeroCtr, .ok ()⟩
  | none =>
    match loadOneFromProps decodeString "" b c PropertyBundleMediaType false with
    | ⟨c₁, k₁, .error e⟩ =>
      ⟨c₁, k₁, .error ("error determining bundle mediatype for bundle \"" ++ b.Name
        ++ "\": " ++ e)⟩
    | ⟨c₁, k₁, .ok m⟩ => ⟨{ c₁ with mediaType := some m }, k₁, .ok ()⟩

/-- `Bundle.MediaType`. -/
def MediaType (b : Bundle) (c : Cache) : Step String :=
  match loadMediaType b c with
  | ⟨c₁, k, .error e⟩ => ⟨c₁, k, .error e⟩
  | ⟨c₁, k, .ok _⟩ => ⟨c₁, k, .ok (c₁.mediaType.getD "")⟩

/-- Version of a bundle as read through a fresh cache: the functional
view of `Bundle.Version` (the accessors are deterministic in the
immutable bundle data, so every cache state of one bundle yields this
same answer). -/
def bundleVersion (b : Bundle) : Except String SemVer :=
  (Version b initCache).out

/-- Required packages of a bundle as read through a fresh cache. -/
def bundleRequiredPackages (b : Bundle) : Except String (List PackageRequired) :=
  (RequiredPackages b initCache).out

/-- Modelled from the spec: the externally visible identifier string of
a bundle, the `<catalog>-<package>-<bundle>` triple used for
deduplication and in error messages (`olmvariables.BundleVariableID`,
not among the available sources). -/
def BundleVariableID (b : Bundle) : String :=
  b.CatalogName ++ "-" ++ b.Package ++ "-" ++ b.Name

/-- Modelled from the spec: a required-package variable, carrying the
package name and the ordered candidate bundle list
(`olmvariables.RequiredPackageVariable`, not among the available
sources). -/
structure RequiredPackageVariable where
  packageName : String
  bundles : List Bundle
deriving DecidableEq, Repr

/-- Modelled from the spec: an installed-package variable
(`olmvariables.InstalledPackageVariable`, not among the available
sources). -/
structure InstalledPackageVariable where
  packageName : String
  bundles : List Bundle
deriving DecidableEq, Repr

/-- Modelled from the spec: a bundle variable, binding one discovered
bundle to its resolved, ordered dependency list
(`olmvariables.BundleVariable`, not among the available sources). -/
structure BundleVariable where
  bundle : Bundle
  dependencies : List Bundle
deriving DecidableEq, Repr

/-- A catalog bundle satisfies one required-package constraint when its
package name matches and its parsed version lies in the declared range
(a bundle whose version does not parse matches nothing). -/
def bundleMatchesConstraint (cb : Bundle) (r : PackageRequired) : Bool :=
  cb.Package == r.packageName &&
    (match bundleVersion cb with
     | .ok v => rangeSatisfied r.semverRange v
     | .error _ => false)

/-- Modelled from the spec: for each required-package constraint of a
bundle, in declaration order, every catalog bundle matching it, in
catalog-scan order; a constraint matching zero catalog bundles aborts
with the dependency-not-found error whose text is taken from the test
assertions. -/
def collectMatches (allBundles : List Bundle) (name : String) :
    List PackageRequired → Except String (List Bundle)
  | [] => .ok []
  | r :: rest =>
    let ms := allBundles.filter (fun cb => bundleMatchesConstraint cb r)
    if ms.isEmpty then
      .error ("could not find package dependencies for bundle \"" ++ name ++ "\"")
    else
      match collectMatches allBundles name rest with
      | .error e => .error e
      | .ok more => .ok (ms ++ more)

/-- Modelled from the spec: deduplicate a match list by bundle
identifier, keeping first occurrences, given the identifiers already
seen. -/
def dedupById : List Bundle → List String → List Bundle
  | [], _ => []
  | x :: xs, seen =>
    if BundleVariableID x ∈ seen then dedupById xs seen
    else x :: dedupById xs (BundleVariableID x :: seen)

/-- Sort key of the version-descending dependency ordering: the parsed
version of the bundle (only applied to bundles that passed the range
filter, whose versions parse). -/
def versionKey (b : Bundle) : SemVer :=
  match bundleVersion b with
  | .ok v => v
  | .error _ => ⟨0, 0, 0⟩

/-- Insert a bundle into a version-descending list, before the first
strictly lower version, so bundles of equal version keep their
relative order. -/
def insertByVersion (x : Bundle) : List Bundle → List Bundle
  | [] => [x]
  | y :: ys =>
    if semverLt (versionKey x) (versionKey y) then y :: insertByVersion x ys
    else x :: y :: ys

/-- Modelled from the spec: stable sort of a dependency list by
descending parsed version (insertion sort; equal versions preserve
their incoming, catalog-scan order). -/
def sortByVersion : List Bundle → List Bundle
  | [] => []
  | x :: xs => insertByVersion x (sortByVersion xs)

/-- Modelled from the spec: the resolved dependency list of one bundle —
all catalog bundles matching its required-package constraints, sorted
by descending version and deduplicated by bundle identifier; fails when
any constraint matches zero catalog bundles. -/
def filterBundleDependencies (allBundles : List Bundle) (b : Bundle) :
    Except String (List Bundle) :=
  match bundleRequiredPackages b with
  | .error e => .error e
  | .ok reqs =>
    match collectMatches allBundles b.Name reqs with
    | .error e => .error e
    | .ok ms => .ok (sortByVersion (dedupById ms []))

/-- The closure builder's error wrapper naming the failing bundle's
full identifier (text taken from the test assertions). -/
def depWrap (b : Bundle) (msg : String) : String :=
  "could not determine dependencies for bundle with id \"" ++ BundleVariableID b ++ "\": " ++ msg

/-- Identifier list of a bundle list. -/
def idsOf (l : List Bundle) : List String :=
  l.map BundleVariableID

/-- Modelled from the spec: the breadth-first closure walk.  Pops the
queue head; an already-visited identifier is skipped, otherwise the
bundle's dependency list is resolved, a bundle variable is recorded in
traversal order, and the dependencies are enqueued.  A resolution
failure aborts the whole walk.  The walk is fueled; `none` reports fuel
exhaustion, which `closureFuel` is proven to rule out. -/
def goClosure (allBundles : List Bundle) :
    Nat → List Bundle → List String → List BundleVariable →
    Option (Except String (List BundleVariable))
  | _, [], _, result => some (.ok result)
  | 0, _ :: _, _, _ => none
  | fuel + 1, h :: t, visited, result =>
    if BundleVariableID h ∈ visited then goClosure allBundles fuel t visited result
    else
      match filterBundleDependencies allBundles h with
      | .error e => some (.error (depWrap h e))
      | .ok deps =>
        goClosure allBundles fuel (t ++ deps) (visited ++ [BundleVariableID h])
          (result ++ [⟨h, deps⟩])

/-- Fuel bound sufficient for the closure walk: every skip step shrinks
the queue and every walk step retires one identifier of the finite
identifier universe while enqueuing at most one dependency per catalog
bundle. -/
def closureFuel (allBundles seeds : List Bundle) : Nat :=
  seeds.length + (idsOf allBundles ++ idsOf seeds).toFinset.card * (allBundles.length + 1)

/-- The seed queue: every candidate bundle of every required-package
variable, then of every installed-package variable, in order. -/
def seedBundles (requiredPackages : List RequiredPackageVariable)
    (installedPackages : List InstalledPackageVariable) : List Bundle :=
  (requiredPackages.map (fun v => v.bundles)).flatten ++
    (installedPackages.map (fun v => v.bundles)).flatten

/-- Modelled from the spec: `MakeBundleVariables`, the bundle
dependency closure builder.  Seeds the walk with every candidate of the
required- and installed-package variables and returns the bundle
variables in traversal order, or the first resolution error.  (The
fuel-exhaustion branch is unreachable by `goClosure_isSome`.) -/
def MakeBundleVariables (allBundles : List Bundle)
    (requiredPackages : List RequiredPackageVariable)
    (installedPackages : List InstalledPackageVariable) :
    Except String (List BundleVariable) :=
  let seeds := seedBundles requiredPackages installedPackages
  match goClosure allBundles (closureFuel allBundles seeds) seeds [] [] with
  | some r => r
  | none => .ok []

/-- Substring test used to state what an error message names. -/
def strContains (hay needle : String) : Bool :=
  decide (needle.data <:+: hay.data)

deriving instance DecidableEq for Except

/-- The `test-package.v1.0.0` bundle of the valid-dependencies test
catalog. -/
def tp100 : Bundle :=
  { Name := "test-package.v1.0.0", Package := "test-package", CatalogName := "fake-catalog",
    Properties := [⟨TypePackage, .pkg "test-package" "1.0.0"⟩,
      ⟨TypePackageRequired, .pkgRequired "first-level-dependency" ">=1.0.0 <2.0.0"⟩],
    InChannels := [⟨"stable"⟩] }

/-- The `first-level-dependency.v1.0.0` bundle. -/
def fld100 : Bundle :=
  { Name := "first-level-dependency.v1.0.0", Package := "first-level-dependency",
    CatalogName := "fake-catalog",
    Properties := [⟨TypePackage, .pkg "first-level-dependency" "1.0.0"⟩,
      ⟨TypePackageRequired, .pkgRequired "second-level-dependency" ">=1.0.0 <2.0.0"⟩],
    InChannels := [⟨"stable"⟩] }

/-- The `second-level-dependency.v1.0.0` bundle. -/
def sld100 : Bundle :=
  { Name := "second-level-dependency.v1.0.0", Package := "second-level-dependency",
    CatalogName := "fake-catalog",
    Properties := [⟨TypePackage, .pkg "second-level-dependency" "1.0.0"⟩],
    InChannels := [⟨"stable"⟩] }

/-- The `second-level-dependency.v1.0.1` bundle. -/
def sld101 : Bundle :=
  { Name := "second-level-dependency.v1.0.1", Package := "second-level-dependency",
    CatalogName := "fake-catalog",
    Properties := [⟨TypePackage, .pkg "second-level-dependency" "1.0.1"⟩],
    InChannels := [⟨"stable"⟩] }

/-- The `second-level-dependency.v2.0.0` bundle (outside the required
range). -/
def sld200 : Bundle :=
  { Name := "second-level-dependency.v2.0.0", Package := "second-level-dependency",
    CatalogName := "fake-catalog",
    Properties := [⟨TypePackage, .pkg "second-level-dependency" "2.0.0"⟩],
    InChannels := [⟨"stable"⟩] }

/-- The unrelated `uninvolved-package.v1.0.0` bundle. -/
def up100 : Bundle :=
  { Name := "uninvolved-package.v1.0.0", Package := "uninvolved-package",
    CatalogName := "fake-catalog",
    Properties := [⟨TypePackage, .pkg "uninvolved-package" "1.0.0"⟩],
    InChannels := [⟨"stable"⟩] }

/-- The valid-dependencies test catalog (section 8 of the spec). -/
def validDepsCatalog : List Bundle := [tp100, fld100, sld100, sld101, sld200, up100]

/-- The required-package seed of the valid-dependencies scenario:
`first-level-dependency.v1.0.0` as the only candidate for
`test-package`. -/
def validDepsRequired : List RequiredPackageVariable :=
  [⟨"test-package", [fld100]⟩]

/-- The installed-package seed of the valid-dependencies scenario. -/
def validDepsInstalled : List InstalledPackageVariable :=
  [⟨"test-package", [fld100]⟩]


/-- The only catalog bundle of the non-existent-dependencies test: it
requires `first-level-dependency`, which no catalog bundle provides. -/
def tpOnly : Bundle :=
  { Name := "test-package.v1.0.0", Package := "test-package", CatalogName := "fake-catalog",
    Properties := [⟨TypePackage, .pkg "test-package" "1.0.0"⟩,
      ⟨TypePackageRequired, .pkgRequired "first-level-dependency" ">=1.0.0 <2.0.0"⟩],
    InChannels := [⟨"stable"⟩] }

/-- The non-existent-dependencies catalog. -/
def missingDepCatalog : List Bundle := [tpOnly]

/-- Its required-package seed: the test package itself. -/
def missingDepRequired : List RequiredPackageVariable :=
  [⟨"test-package", [tpOnly]⟩]

/-- The error message the closure builder produces on the
non-existent-dependencies catalog. -/
def missingDepMsg : String :=
  "could not determine dependencies for bundle with id " ++
    "\"fake-catalog-test-package-test-package.v1.0.0\": " ++
    "could not find package dependencies for bundle \"test-package.v1.0.0\""



/-- Opaque stand-in for a GVK JSON payload (its content is never
decoded by any accessor of this core). -/
def gvkFoo : PropValue := .raw "group foo.io kind Foo version v1"

/-- Opaque stand-in for the `bar.io/Bar` GVK payload. -/
def gvkBar : PropValue := .raw "group bar.io kind Bar version v1"

/-- `bundle-1` of the variable-source catalog (`test-package` v1.0.0,
carrying a required-GVK property). -/
def gb1 : Bundle :=
  { Name := "bundle-1", Package := "test-package", CatalogName := "fake-catalog",
    Properties := [⟨TypePackage, .pkg "test-package" "1.0.0"⟩, ⟨TypeGVKRequired, gvkFoo⟩],
    InChannels := [⟨"stable"⟩] }

/-- `bundle-2` (`test-package` v2.0.0, requiring `some-package`
`>=1.0.0 <2.0.0` and a GVK). -/
def gb2 : Bundle :=
  { Name := "bundle-2", Package := "test-package", CatalogName := "fake-catalog",
    Properties := [⟨TypePackage, .pkg "test-package" "2.0.0"⟩, ⟨TypeGVKRequired, gvkFoo⟩,
      ⟨TypePackageRequired, .pkgRequired "some-package" ">=1.0.0 <2.0.0"⟩],
    InChannels := [⟨"stable"⟩] }

/-- `bundle-4` (`some-package` v1.0.0). -/
def gb4 : Bundle :=
  { Name := "bundle-4", Package := "some-package", CatalogName := "fake-catalog",
    Properties := [⟨TypePackage, .pkg "some-package" "1.0.0"⟩],
    InChannels := [⟨"stable"⟩] }

/-- `bundle-5` (`some-package` v1.5.0). -/
def gb5 : Bundle :=
  { Name := "bundle-5", Package := "some-package", CatalogName := "fake-catalog",
    Properties := [⟨TypePackage, .pkg "some-package" "1.5.0"⟩],
    InChannels := [⟨"stable"⟩] }

/-- `bundle-6` (`some-package` v2.0.0, outside the required range). -/
def gb6 : Bundle :=
  { Name := "bundle-6", Package := "some-package", CatalogName := "fake-catalog",
    Properties := [⟨TypePackage, .pkg "some-package" "2.0.0"⟩],
    InChannels := [⟨"stable"⟩] }

/-- `bundle-7` (`some-other-package` v1.0.0, providing the `foo.io`
GVK). -/
def gb7 : Bundle :=
  { Name := "bundle-7", Package := "some-other-package", CatalogName := "fake-catalog",
    Properties := [⟨TypePackage, .pkg "some-other-package" "1.0.0"⟩, ⟨"olm.gvk", gvkFoo⟩],
    InChannels := [⟨"stable"⟩] }

/-- `bundle-8` (`some-other-package` v1.5.0, providing `foo.io`,
requiring the `bar.io` GVK and `another-package < 2.0.0`). -/
def gb8 : Bundle :=
  { Name := "bundle-8", Package := "some-other-package", CatalogName := "fake-catalog",
    Properties := [⟨TypePackage, .pkg "some-other-package" "1.5.0"⟩, ⟨"olm.gvk", gvkFoo⟩,
      ⟨TypeGVKRequired, gvkBar⟩, ⟨TypePackageRequired, .pkgRequired "another-package" "< 2.0.0"⟩],
    InChannels := [⟨"stable"⟩] }

/-- `bundle-9` (`another-package` v1.0.0, providing `foo.io`). -/
def gb9 : Bundle :=
  { Name := "bundle-9", Package := "another-package", CatalogName := "fake-catalog",
    Properties := [⟨TypePackage, .pkg "another-package" "1.0.0"⟩, ⟨"olm.gvk", gvkFoo⟩],
    InChannels := [⟨"stable"⟩] }

/-- `bundle-10` (`bar-package` v1.0.0, providing `bar.io`). -/
def gb10 : Bundle :=
  { Name := "bundle-10", Package := "bar-package", CatalogName := "fake-catalog",
    Properties := [⟨TypePackage, .pkg "bar-package" "1.0.0"⟩, ⟨"olm.gvk", gvkBar⟩],
    InChannels := [⟨"stable"⟩] }

/-- `bundle-11` (`bar-package` v2.0.0, providing `bar.io`). -/
def gb11 : Bundle :=
  { Name := "bundle-11", Package := "bar-package", CatalogName := "fake-catalog",
    Properties := [⟨TypePackage, .pkg "bar-package" "2.0.0"⟩, ⟨"olm.gvk", gvkBar⟩],
    InChannels := [⟨"stable"⟩] }

/-- `bundle-15` (`test-package-2` v1.5.0). -/
def gb15 : Bundle :=
  { Name := "bundle-15", Package := "test-package-2", CatalogName := "fake-catalog",
    Properties := [⟨TypePackage, .pkg "test-package-2" "1.5.0"⟩],
    InChannels := [⟨"stable"⟩] }

/-- `bundle-16` (`test-package-2` v2.0.1). -/
def gb16 : Bundle :=
  { Name := "bundle-16", Package := "test-package-2", CatalogName := "fake-catalog",
    Properties := [⟨TypePackage, .pkg "test-package-2" "2.0.1"⟩],
    InChannels := [⟨"stable"⟩] }

/-- `bundle-17` (`test-package-2` v3.16.0). -/
def gb17 : Bundle :=
  { Name := "bundle-17", Package := "test-package-2", CatalogName := "fake-catalog",
    Properties := [⟨TypePackage, .pkg "test-package-2" "3.16.0"⟩],
    InChannels := [⟨"stable"⟩] }

/-- `bundle-12` (`unrelated-package` v2.0.0). -/
def gb12 : Bundle :=
  { Name := "bundle-12", Package := "unrelated-package", CatalogName := "fake-catalog",
    Properties := [⟨TypePackage, .pkg "unrelated-package" "2.0.0"⟩],
    InChannels := [⟨"stable"⟩] }

/-- `bundle-13` (`unrelated-package-2` v2.0.0). -/
def gb13 : Bundle :=
  { Name := "bundle-13", Package := "unrelated-package-2", CatalogName := "fake-catalog",
    Properties := [⟨TypePackage, .pkg "unrelated-package-2" "2.0.0"⟩],
    InChannels := [⟨"stable"⟩] }

/-- `bundle-14` (`unrelated-package-2` v3.0.0). -/
def gb14 : Bundle :=
  { Name := "bundle-14", Package := "unrelated-package-2", CatalogName := "fake-catalog",
    Properties := [⟨TypePackage, .pkg "unrelated-package-2" "3.0.0"⟩],
    InChannels := [⟨"stable"⟩] }

/-- The full variable-source test catalog, in declaration order. -/
def gvkCatalog : List Bundle :=
  [gb1, gb2, gb4, gb5, gb6, gb7, gb8, gb9, gb10, gb11, gb15, gb16, gb17, gb12, gb13, gb14]

/-- The two required-package variables supplied to the variable source
in the test: `test-package` with candidates `bundle-2`, `bundle-1` and
`test-package-2` with candidates `bundle-15`, `bundle-16`,
`bundle-17`. -/
def gvkRequired : List RequiredPackageVariable :=
  [⟨"test-package", [gb2, gb1]⟩, ⟨"test-package-2", [gb15, gb16, gb17]⟩]

/-- The bundle-variable identifiers the test expects, in traversal
order. -/
def gvkExpectedIds : List String :=
  ["fake-catalog-test-package-bundle-2",
   "fake-catalog-test-package-bundle-1",
   "fake-catalog-test-package-2-bundle-15",
   "fake-catalog-test-package-2-bundle-16",
   "fake-catalog-test-package-2-bundle-17",
   "fake-catalog-some-package-bundle-5",
   "fake-catalog-some-package-bundle-4"]


theorem lookupProps_addProp (m : List (String × List Property)) (p : Property) (t : String) :
    lookupProps (addProp m p) t =
      if p.type == t then lookupProps m t ++ [p] else lookupProps m t := by
  induction m with
  | nil =>
    by_cases h : p.type == t <;> simp [addProp, lookupProps, h]
  | cons hd tl ih =>
    obtain ⟨t₀, ps⟩ := hd
    by_cases h₀ : t₀ == p.type
    · have ht₀ : t₀ = p.type := by simpa using h₀
      by_cases h : p.type == t <;>
        simp [addProp, lookupProps, ht₀, h₀, h]
    · by_cases h : t₀ == t
      · have ht : t₀ = t := by simpa using h
        have hpt : ¬(p.type == t) := by
          simp only [beq_iff_eq] at h₀ ⊢
          exact fun hp => h₀ (ht.trans hp.symm)
        simp [addProp, lookupProps, h₀, h, hpt]
      · simp [addProp, lookupProps, h₀, h, ih]

theorem lookupProps_foldl (l : List Property) (m : List (String × List Property)) (t : String) :
    lookupProps (l.foldl addProp m) t =
      lookupProps m t ++ l.filter (fun p => p.type == t) := by
  induction l generalizing m with
  | nil => simp
  | cons p ps ih =>
    by_cases h : p.type == t <;>
      simp [List.foldl_cons, ih, lookupProps_addProp, h, List.filter_cons]

theorem lookupProps_build (props : List Property) (t : String) :
    lookupProps (buildPropertiesMap props) t = props.filter (fun p => p.type == t) := by
  simpa [buildPropertiesMap, lookupProps] using lookupProps_foldl props [] t

/-- The cache after any accessor touched the property map: the map is
built on first use and untouched afterwards. -/
def mapBuilt (b : Bundle) (c : Cache) : Cache :=
  { c with propertiesMap := some (c.propertiesMap.getD (buildPropertiesMap b.Properties)) }

/-- A cache whose property map is either still unset or the built map
of this bundle (every cache reachable for a bundle satisfies this). -/
def MapOk (b : Bundle) (c : Cache) : Prop :=
  c.propertiesMap = none ∨ c.propertiesMap = some (buildPropertiesMap b.Properties)

theorem mapBuilt_of_some {b : Bundle} {c : Cache} {m : List (String × List Property)}
    (h : c.propertiesMap = some m) : mapBuilt b c = c := by
  cases c
  simp_all [mapBuilt]

theorem mapOk_mapBuilt (b : Bundle) (c : Cache) (h : MapOk b c) : MapOk b (mapBuilt b c) := by
  rcases h with h | h <;> simp [MapOk, mapBuilt, h]

theorem propertiesByType_eq (b : Bundle) (c : Cache) (t : String) (h : MapOk b c) :
    propertiesByType b c t = (mapBuilt b c, b.Properties.filter (fun p => p.type == t)) := by
  rcases h with h | h
  · simp [propertiesByType, mapBuilt, h, lookupProps_build]
  · simp [propertiesByType, h, lookupProps_build, mapBuilt_of_some h]

/-- The parse work of `loadFromProps` on one property bucket. -/
def fromPropsCtr (dec : PropValue → Except String α) (t : String) (props : List Property) :
    Counters :=
  if props.isEmpty then zeroCtr else { zeroCtr with decodes := (decodeProps dec t props).1 }

/-- The value of `loadFromProps` on one property bucket. -/
def fromPropsOut (dec : PropValue → Except String α) (t : String) (required : Bool)
    (props : List Property) : Except String (List α) :=
  if props.isEmpty then
    if required then .error ("bundle property with type \"" ++ t ++ "\" not found")
    else .ok []
  else (decodeProps dec t props).2

theorem loadFromProps_eq (dec : PropValue → Except String α) (b : Bundle) (c : Cache)
    (t : String) (required : Bool) (h : MapOk b c) :
    loadFromProps dec b c t required =
      ⟨mapBuilt b c, fromPropsCtr dec t (b.Properties.filter (fun p => p.type == t)),
        fromPropsOut dec t required (b.Properties.filter (fun p => p.type == t))⟩ := by
  rw [loadFromProps, propertiesByType_eq b c t h]
  by_cases hp : (b.Properties.filter (fun p => p.type == t)).isEmpty
  · simp only [fromPropsCtr, fromPropsOut, hp, if_true]
    split <;> rfl
  · simp [fromPropsCtr, fromPropsOut, hp]

/-- The value of `loadOneFromProps` on one property bucket. -/
def onePropsOut (dec : PropValue → Except String α) (dflt : α) (t : String) (required : Bool)
    (props : List Property) : Except String α :=
  match fromPropsOut dec t required props with
  | .error e => .error e
  | .ok r =>
    if r.length > 1 then
      .error ("expected 1 instance of property with type \"" ++ t ++ "\", got "
        ++ toString r.length)
    else if !required && r.isEmpty then .ok dflt
    else
      match r with
      | x :: _ => .ok x
      | [] => .error "index out of range"

theorem loadOneFromProps_eq (dec : PropValue → Except String α) (dflt : α) (b : Bundle)
    (c : Cache) (t : String) (required : Bool) (h : MapOk b c) :
    loadOneFromProps dec dflt b c t required =
      ⟨mapBuilt b c, fromPropsCtr dec t (b.Properties.filter (fun p => p.type == t)),
        onePropsOut dec dflt t required (b.Properties.filter (fun p => p.type == t))⟩ := by
  rw [loadOneFromProps, loadFromProps_eq dec b c t required h]
  rcases hout : fromPropsOut dec t required (b.Properties.filter (fun p => p.type == t)) with e | r
  · simp [onePropsOut, hout]
  · simp only [onePropsOut, hout]
    by_cases h1 : r.length > 1
    · simp [h1]
    · by_cases h2 : !required && r.isEmpty
      · simp [h1, h2]
      · cases r <;> simp [h1, h2] <;> split <;> rfl

/-- The package-identity property bucket of a bundle. -/
def pkgProps (b : Bundle) : List Property :=
  b.Properties.filter (fun p => p.type == TypePackage)

/-- The required-package property bucket of a bundle. -/
def reqProps (b : Bundle) : List Property :=
  b.Properties.filter (fun p => p.type == TypePackageRequired)

/-- The media-type property bucket of a bundle. -/
def mtProps (b : Bundle) : List Property :=
  b.Properties.filter (fun p => p.type == PropertyBundleMediaType)

/-- Outcome of decoding the (required, single-valued) package-identity
property. -/
def pkgOut (b : Bundle) : Except String PropPackage :=
  onePropsOut decodePackage ⟨"", ""⟩ TypePackage true (pkgProps b)

/-- Decode work of the package-identity lookup. -/
def pkgCtr (b : Bundle) : Counters :=
  fromPropsCtr decodePackage TypePackage (pkgProps b)

theorem Version_fresh (b : Bundle) (c : Cache) (h : MapOk b c)
    (hbp : c.bundlePackage = none) (hsv : c.semVersion = none) :
    Version b c =
      match pkgOut b with
      | .error e => ⟨mapBuilt b c, pkgCtr b, .error e⟩
      | .ok p =>
        match parseSemVer p.version with
        | .error pe =>
          ⟨{ mapBuilt b c with bundlePackage := some p },
            { pkgCtr b with semverParses := (pkgCtr b).semverParses + 1 },
            .error ("could not parse semver \"" ++ p.version ++ "\" for bundle \""
              ++ b.Name ++ "\": " ++ pe)⟩
        | .ok v =>
          ⟨{ mapBuilt b c with bundlePackage := some p, semVersion := some v },
            { pkgCtr b with semverParses := (pkgCtr b).semverParses + 1 }, .ok v⟩ := by
  have hmb : (mapBuilt b c).semVersion = c.semVersion := rfl
  rw [Version, loadPackage, hbp]
  rw [loadOneFromProps_eq decodePackage ⟨"", ""⟩ b c TypePackage true h]
  rcases hpo : pkgOut b with e | p
  · simp [pkgOut, pkgProps, pkgCtr] at hpo ⊢
    simp [hpo]
  · simp only [pkgOut, pkgProps] at hpo
    simp only [hpo, pkgCtr, pkgProps]
    have : ({ mapBuilt b c with bundlePackage := some p } : Cache).semVersion = none := by
      simp [mapBuilt, hsv]
    rcases hpv : parseSemVer p.version with pe | v <;> simp [this, hpv, mapBuilt, hsv]

theorem Version_pkgCached (b : Bundle) (c : Cache) (p : PropPackage)
    (hbp : c.bundlePackage = some p) (hsv : c.semVersion = none) :
    Version b c =
      match parseSemVer p.version with
      | .error pe =>
        ⟨c, ⟨0, 1, 0⟩, .error ("could not parse semver \"" ++ p.version ++ "\" for bundle \""
          ++ b.Name ++ "\": " ++ pe)⟩
      | .ok v => ⟨{ c with semVersion := some v }, ⟨0, 1, 0⟩, .ok v⟩ := by
  rw [Version, loadPackage, hbp]
  rcases hpv : parseSemVer p.version with pe | v <;> simp [hsv, hbp, hpv, zeroCtr]

theorem Version_allCached (b : Bundle) (c : Cache) (p : PropPackage) (v : SemVer)
    (hbp : c.bundlePackage = some p) (hsv : c.semVersion = some v) :
    Version b c = ⟨c, zeroCtr, .ok v⟩ := by
  rw [Version, loadPackage, hbp]
  simp [hsv]

/-- Raw decoded required-package declarations of a bundle (before
range parsing), with the `loadFromProps` error wrap. -/
def reqRawOut (b : Bundle) : Except String (List PackageRequired) :=
  fromPropsOut decodePackageRequired TypePackageRequired false (reqProps b)

/-- Decode work of the required-package lookup. -/
def reqCtr (b : Bundle) : Counters :=
  fromPropsCtr decodePackageRequired TypePackageRequired (reqProps b)

theorem RequiredPackages_fresh (b : Bundle) (c : Cache) (h : MapOk b c)
    (hrp : c.requiredPackages = none) :
    RequiredPackages b c =
      match reqRawOut b with
      | .error e =>
        ⟨mapBuilt b c, reqCtr b,
          .error ("error determining bundle required packages for bundle \"" ++ b.Name
            ++ "\": " ++ e)⟩
      | .ok rs =>
        match parseReqRanges b.Name rs with
        | (n, .error e) => ⟨mapBuilt b c, { reqCtr b with rangeParses := n }, .error e⟩
        | (n, .ok rs₂) =>
          ⟨{ mapBuilt b c with requiredPackages := if rs₂.isEmpty then none else some rs₂ },
            { reqCtr b with rangeParses := n }, .ok rs₂⟩ := by
  have hmb : (mapBuilt b c).requiredPackages = c.requiredPackages := rfl
  rw [RequiredPackages, loadRequiredPackages, hrp]
  rw [loadFromProps_eq decodePackageRequired b c TypePackageRequired false h]
  rcases hro : reqRawOut b with e | rs
  · simp only [reqRawOut, reqProps] at hro
    simp [hro, reqCtr, reqProps]
  · simp only [reqRawOut, reqProps] at hro
    simp only [hro, reqCtr, reqProps]
    rcases hpr : parseReqRanges b.Name rs with ⟨n, res⟩
    rcases res with e | rs₂
    · simp
    · cases rs₂ <;> simp

theorem RequiredPackages_cached (b : Bundle) (c : Cache) (rs : List PackageRequired)
    (hrp : c.requiredPackages = some rs) :
    RequiredPackages b c = ⟨c, zeroCtr, .ok rs⟩ := by
  rw [RequiredPackages, loadRequiredPackages, hrp]
  simp [hrp]

/-- Outcome of decoding the (optional, single-valued) media-type
property. -/
def mtOut (b : Bundle) : Except String String :=
  onePropsOut decodeString "" PropertyBundleMediaType false (mtProps b)

/-- Decode work of the media-type lookup. -/
def mtCtr (b : Bundle) : Counters :=
  fromPropsCtr decodeString PropertyBundleMediaType (mtProps b)

theorem MediaType_fresh (b : Bundle) (c : Cache) (h : MapOk b c) (hmt : c.mediaType = none) :
    MediaType b c =
      match mtOut b with
      | .error e =>
        ⟨mapBuilt b c, mtCtr b,
          .error ("error determining bundle mediatype for bundle \"" ++ b.Name ++ "\": " ++ e)⟩
      | .ok m => ⟨{ mapBuilt b c with mediaType := some m }, mtCtr b, .ok m⟩ := by
  rw [MediaType, loadMediaType, hmt]
  rw [loadOneFromProps_eq decodeString "" b c PropertyBundleMediaType false h]
  rcases hmo : mtOut b with e | m
  · simp only [mtOut, mtProps] at hmo
    simp [hmo, mtCtr, mtProps]
  · simp only [mtOut, mtProps] at hmo
    simp [hmo, mtCtr, mtProps]

theorem MediaType_cached (b : Bundle) (c : Cache) (m : String) (hmt : c.mediaType = some m) :
    MediaType b c = ⟨c, zeroCtr, .ok m⟩ := by
  rw [MediaType, loadMediaType, hmt]
  simp [hmt]

theorem mapBuilt_idem (b : Bundle) (c : Cache) : mapBuilt b (mapBuilt b c) = mapBuilt b c := by
  cases c
  simp [mapBuilt]

theorem Version_second (b : Bundle) :
    (Version b (Version b initCache).cache).out = (Version b initCache).out ∧
    (Version b (Version b initCache).cache).cache = (Version b initCache).cache ∧
    ∀ v, (Version b initCache).out = .ok v →
      (Version b (Version b initCache).cache).ctr = zeroCtr := by
  have hfresh := Version_fresh b initCache (Or.inl rfl) rfl rfl
  rcases hpo : pkgOut b with e | p
  · simp only [hpo] at hfresh
    have h2 := Version_fresh b (mapBuilt b initCache) (Or.inr rfl) rfl rfl
    simp only [hpo] at h2
    rw [hfresh]
    simp only [h2, mapBuilt_idem]
    simp
  · rcases hpv : parseSemVer p.version with pe | v
    · simp only [hpo, hpv] at hfresh
      have h2 := Version_pkgCached b { mapBuilt b initCache with bundlePackage := some p } p
        rfl rfl
      simp only [hpv] at h2
      rw [hfresh]
      simp only [h2]
      simp
    · simp only [hpo, hpv] at hfresh
      have h2 := Version_allCached b
        { mapBuilt b initCache with bundlePackage := some p, semVersion := some v } p v rfl rfl
      rw [hfresh]
      simp only [h2]
      simp

theorem decodeProps_ok_length (dec : PropValue → Except String α) (t : String) :
    ∀ props l, (decodeProps dec t props).2 = .ok l → l.length = props.length := by
  intro props
  induction props with
  | nil => intro l h; simp [decodeProps] at h; simp [h.symm]
  | cons p ps ih =>
    intro l h
    simp only [decodeProps] at h
    rcases hd : dec p.value with e | a
    · rw [hd] at h; simp at h
    · rw [hd] at h
      rcases hr : (decodeProps dec t ps).2 with e | as
      · simp [hr] at h
      · simp [hr] at h
        subst h
        simp [ih as hr]

theorem reqRaw_ok_nil (b : Bundle) (h : reqRawOut b = .ok []) : reqProps b = [] := by
  by_cases hp : (reqProps b).isEmpty
  · simpa using hp
  · exfalso
    simp only [reqRawOut, fromPropsOut, hp, if_false] at h
    have hlen := decodeProps_ok_length decodePackageRequired TypePackageRequired (reqProps b) [] h
    simp only [List.length_nil] at hlen
    exact hp (by simp [List.length_eq_zero.mp hlen.symm])

theorem parseReqRanges_ok_nil (name : String) (rs : List PackageRequired) (n : Nat)
    (h : parseReqRanges name rs = (n, .ok [])) : rs = [] ∧ n = 0 := by
  cases rs with
  | nil =>
    have h0 := congrArg Prod.fst h
    simp only [parseReqRanges] at h0
    exact ⟨rfl, h0.symm⟩
  | cons r rest =>
    exfalso
    simp only [parseReqRanges] at h
    rcases hp : parseRange r.versionRange with e | rng
    · rw [hp] at h; simp at h
    · rw [hp] at h
      rcases hres : (parseReqRanges name rest).2 with e | rs₂ <;> simp [hres] at h

theorem reqCtr_nil (b : Bundle) (h : reqProps b = []) : reqCtr b = zeroCtr := by
  simp [reqCtr, fromPropsCtr, h]

theorem RequiredPackages_second (b : Bundle) :
    (RequiredPackages b (RequiredPackages b initCache).cache).out
        = (RequiredPackages b initCache).out ∧
    (RequiredPackages b (RequiredPackages b initCache).cache).cache
        = (RequiredPackages b initCache).cache ∧
    ∀ rs, (RequiredPackages b initCache).out = .ok rs →
      (RequiredPackages b (RequiredPackages b initCache).cache).ctr = zeroCtr := by
  have hfresh := RequiredPackages_fresh b initCache (Or.inl rfl) rfl
  rcases hro : reqRawOut b with e | rs
  · simp only [hro] at hfresh
    have h2 := RequiredPackages_fresh b (mapBuilt b initCache) (Or.inr rfl) rfl
    simp only [hro] at h2
    rw [hfresh]
    simp only [h2, mapBuilt_idem]
    simp
  · rcases hpr : parseReqRanges b.Name rs with ⟨n, res⟩
    rcases res with e | rs₂
    · simp only [hro, hpr] at hfresh
      have h2 := RequiredPackages_fresh b (mapBuilt b initCache) (Or.inr rfl) rfl
      simp only [hro, hpr] at h2
      rw [hfresh]
      simp only [h2, mapBuilt_idem]
      simp
    · cases rs₂ with
      | nil =>
        obtain ⟨hrs, hn⟩ := parseReqRanges_ok_nil b.Name rs n hpr
        subst hrs hn
        have hprops := reqRaw_ok_nil b hro
        simp only [hro, hpr] at hfresh
        simp only [List.isEmpty_nil, if_true] at hfresh
        have h2 := RequiredPackages_fresh b (mapBuilt b initCache) (Or.inr rfl) rfl
        simp only [hro, hpr] at h2
        simp only [List.isEmpty_nil, if_true, mapBuilt_idem] at h2
        have hz := reqCtr_nil b hprops
        rw [hfresh]
        have hEta : (⟨(mapBuilt b initCache).propertiesMap, (mapBuilt b initCache).bundlePackage,
            (mapBuilt b initCache).semVersion, none, (mapBuilt b initCache).mediaType⟩ : Cache)
            = mapBuilt b initCache := rfl
        simp only [hEta] at h2 ⊢
        rw [h2]
        simp [hz, zeroCtr]
      | cons r rest =>
        simp only [hro, hpr] at hfresh
        simp only [List.isEmpty_cons, Bool.false_eq_true, if_false] at hfresh
        have h2 := RequiredPackages_cached b
          { mapBuilt b initCache with requiredPackages := some (r :: rest) } (r :: rest) rfl
        rw [hfresh]
        simp only [h2]
        simp

theorem MediaType_second (b : Bundle) :
    (MediaType b (MediaType b initCache).cache).out = (MediaType b initCache).out ∧
    (MediaType b (MediaType b initCache).cache).cache = (MediaType b initCache).cache ∧
    ∀ m, (MediaType b initCache).out = .ok m →
      (MediaType b (MediaType b initCache).cache).ctr = zeroCtr := by
  have hfresh := MediaType_fresh b initCache (Or.inl rfl) rfl
  rcases hmo : mtOut b with e | m
  · simp only [hmo] at hfresh
    have h2 := MediaType_fresh b (mapBuilt b initCache) (Or.inr rfl) rfl
    simp only [hmo] at h2
    rw [hfresh]
    simp only [h2, mapBuilt_idem]
    simp
  · simp only [hmo] at hfresh
    have h2 := MediaType_cached b { mapBuilt b initCache with mediaType := some m } m rfl
    rw [hfresh]
    simp only [h2]
    simp

theorem MediaType_out_fresh (b : Bundle) (c : Cache) (h : MapOk b c)
    (hmt : c.mediaType = none) : (MediaType b c).out = (MediaType b initCache).out := by
  rw [MediaType_fresh b c h hmt, MediaType_fresh b initCache (Or.inl rfl) rfl]
  rcases mtOut b with e | m <;> simp

theorem RequiredPackages_out_fresh (b : Bundle) (c : Cache) (h : MapOk b c)
    (hrp : c.requiredPackages = none) :
    (RequiredPackages b c).out = (RequiredPackages b initCache).out := by
  rw [RequiredPackages_fresh b c h hrp, RequiredPackages_fresh b initCache (Or.inl rfl) rfl]
  rcases hro : reqRawOut b with e | rs
  · simp [hro]
  · rcases hpr : parseReqRanges b.Name rs with ⟨n, res⟩
    rcases res with e | rs₂ <;> simp [hro, hpr]

/-- C4: `Version()`, `RequiredPackages()` and `MediaType()` each parse
their underlying property at most once and cache the result: for every
bundle, calling an accessor a second time (on the cache state its first
call produced, and hence on any later call, since that state is a fixed
point) returns exactly the first call's value or error and leaves the
cache unchanged, and whenever the first call succeeded the second call
performs zero decode, semver-parse and range-parse invocations.  In
particular a malformed declared version yields the identical
malformed-version error on every call. -/
theorem bundle_accessors_cache_once (b : Bundle) :
    ((Version b (Version b initCache).cache).out = (Version b initCache).out ∧
      (Version b (Version b initCache).cache).cache = (Version b initCache).cache ∧
      ∀ v, (Version b initCache).out = .ok v →
        (Version b (Version b initCache).cache).ctr = zeroCtr) ∧
    ((RequiredPackages b (RequiredPackages b initCache).cache).out
        = (RequiredPackages b initCache).out ∧
      (RequiredPackages b (RequiredPackages b initCache).cache).cache
        = (RequiredPackages b initCache).cache ∧
      ∀ rs, (RequiredPackages b initCache).out = .ok rs →
        (RequiredPackages b (RequiredPackages b initCache).cache).ctr = zeroCtr) ∧
    ((MediaType b (MediaType b initCache).cache).out = (MediaType b initCache).out ∧
      (MediaType b (MediaType b initCache).cache).cache = (MediaType b initCache).cache ∧
      ∀ m, (MediaType b initCache).out = .ok m →
        (MediaType b (MediaType b initCache).cache).ctr = zeroCtr) :=
  ⟨Version_second b, RequiredPackages_second b, MediaType_second b⟩

/-- Witness for C4 at concrete bundles: a bundle with a valid version
(`first-level-dependency.v1.0.0`) re-answers from the cache with zero
parse work, and a bundle with a malformed version returns the identical
error on the second call. -/
theorem bundle_accessors_cache_once_witness :
    (Version fld100 (Version fld100 initCache).cache).out = (Version fld100 initCache).out ∧
    (Version fld100 (Version fld100 initCache).cache).ctr = zeroCtr ∧
    (RequiredPackages fld100 (RequiredPackages fld100 initCache).cache).ctr = zeroCtr ∧
    (MediaType fld100 (MediaType fld100 initCache).cache).ctr = zeroCtr :=
  ⟨(bundle_accessors_cache_once fld100).1.1,
    (bundle_accessors_cache_once fld100).1.2.2 ⟨1, 0, 0⟩ (by decide),
    (bundle_accessors_cache_once fld100).2.1.2.2
      [⟨"second-level-dependency", ">=1.0.0 <2.0.0", [⟨.ge, ⟨1, 0, 0⟩⟩, ⟨.lt, ⟨2, 0, 0⟩⟩]⟩]
      (by decide),
    (bundle_accessors_cache_once fld100).2.2.2.2 "" (by decide)⟩

/-- C10: a failed semver parse is never stored in the cache and does
not disturb the other accessors.  If `Version` fails although the
package-identity property itself decoded (so the failure is the semver
parse), then the version slot stays unset, a later `Version` call
re-runs the semver parse exactly once (and no property decode) and
returns the identical error, and `MediaType` and `RequiredPackages`
answer exactly as on a fresh bundle. -/
theorem version_error_not_cached (b : Bundle) (e : String)
    (h1 : (Version b initCache).out = .error e)
    (h2 : ((Version b initCache).cache).bundlePackage.isSome = true) :
    ((Version b initCache).cache).semVersion = none ∧
    (Version b (Version b initCache).cache).out = .error e ∧
    (Version b (Version b initCache).cache).ctr.semverParses = 1 ∧
    (Version b (Version b initCache).cache).ctr.decodes = 0 ∧
    (MediaType b (Version b initCache).cache).out = (MediaType b initCache).out ∧
    (RequiredPackages b (Version b initCache).cache).out
      = (RequiredPackages b initCache).out := by
  have hfresh := Version_fresh b initCache (Or.inl rfl) rfl rfl
  rcases hpo : pkgOut b with e' | p
  · simp only [hpo] at hfresh
    rw [hfresh] at h2
    simp [mapBuilt, initCache] at h2
  · rcases hpv : parseSemVer p.version with pe | v
    · simp only [hpo, hpv] at hfresh
      rw [hfresh] at h1
      simp only [Except.error.injEq] at h1
      have h3 := Version_pkgCached b { mapBuilt b initCache with bundlePackage := some p } p
        rfl rfl
      simp only [hpv] at h3
      have h4 := MediaType_out_fresh b { mapBuilt b initCache with bundlePackage := some p }
        (Or.inr rfl) rfl
      have h5 := RequiredPackages_out_fresh b
        { mapBuilt b initCache with bundlePackage := some p } (Or.inr rfl) rfl
      rw [hfresh]
      simp only [mapBuilt, initCache, Option.getD_none] at h3 h4 h5
      simp [h3, h1, h4, h5, mapBuilt, initCache]
    · simp only [hpo, hpv] at hfresh
      rw [hfresh] at h1
      simp at h1

/-- A bundle whose declared version string is not valid semver. -/
def badVersionBundle : Bundle :=
  { Name := "bad-version", Package := "bad-package", CatalogName := "fake-catalog",
    Properties := [⟨TypePackage, .pkg "bad-package" "invalid"⟩], InChannels := [] }

/-- The malformed-version error of `badVersionBundle`. -/
def badVersionMsg : String :=
  "could not parse semver \"invalid\" for bundle \"bad-version\": " ++
    "No Major.Minor.Patch elements found"

/-- Witness for C10 at the malformed-version bundle. -/
theorem version_error_not_cached_witness :
    ((Version badVersionBundle initCache).cache).semVersion = none ∧
    (Version badVersionBundle (Version badVersionBundle initCache).cache).out
      = .error badVersionMsg ∧
    (Version badVersionBundle (Version badVersionBundle initCache).cache).ctr.semverParses = 1 ∧
    (Version badVersionBundle (Version badVersionBundle initCache).cache).ctr.decodes = 0 ∧
    (MediaType badVersionBundle (Version badVersionBundle initCache).cache).out
      = (MediaType badVersionBundle initCache).out ∧
    (RequiredPackages badVersionBundle (Version badVersionBundle initCache).cache).out
      = (RequiredPackages badVersionBundle initCache).out :=
  version_error_not_cached badVersionBundle badVersionMsg (by decide) (by decide)

/-- C5: a missing required property (package identity) is an error,
while missing optional properties yield zero values: on a fresh bundle,
`Version` fails when no package-identity property exists, `MediaType`
returns the empty string without error when no media-type property
exists, and `RequiredPackages` returns the empty list without error
when no required-package property exists. -/
theorem missing_required_errs_missing_optional_empty (b : Bundle) :
    (pkgProps b = [] → ∃ e, (Version b initCache).out = .error e) ∧
    (mtProps b = [] → (MediaType b initCache).out = .ok "") ∧
    (reqProps b = [] → (RequiredPackages b initCache).out = .ok []) := by
  refine ⟨fun h => ?_, fun h => ?_, fun h => ?_⟩
  · have hpo : pkgOut b = .error ("bundle property with type \"" ++ TypePackage
        ++ "\" not found") := by
      simp [pkgOut, onePropsOut, fromPropsOut, h]
    rw [Version_fresh b initCache (Or.inl rfl) rfl rfl]
    rw [hpo]
    exact ⟨_, rfl⟩
  · have hmo : mtOut b = .ok "" := by
      simp [mtOut, onePropsOut, fromPropsOut, h]
    rw [MediaType_fresh b initCache (Or.inl rfl) rfl]
    rw [hmo]
  · have hro : reqRawOut b = .ok [] := by
      simp [reqRawOut, fromPropsOut, h]
    rw [RequiredPackages_fresh b initCache (Or.inl rfl) rfl]
    rw [hro]
    simp [parseReqRanges]

/-- Witness for C5 at a bundle with an empty property bag: all three
buckets are absent. -/
theorem missing_props_witness :
    (∃ e, (Version (Bundle.mk "empty" "empty-package" "fake-catalog" [] []) initCache).out
        = .error e) ∧
    (MediaType (Bundle.mk "empty" "empty-package" "fake-catalog" [] []) initCache).out
        = .ok "" ∧
    (RequiredPackages (Bundle.mk "empty" "empty-package" "fake-catalog" [] []) initCache).out
        = .ok [] :=
  ⟨(missing_required_errs_missing_optional_empty _).1 (by decide),
    (missing_required_errs_missing_optional_empty _).2.1 (by decide),
    (missing_required_errs_missing_optional_empty _).2.2 (by decide)⟩

/-- The bundle variables the valid-dependencies scenario must produce,
in traversal order. -/
def validDepsExpected : List BundleVariable :=
  [⟨fld100, [sld101, sld100]⟩, ⟨sld101, []⟩, ⟨sld100, []⟩]

/-- C1: on the concrete section-8 catalog, seeding with
`first-level-dependency.v1.0.0` as the only candidate for
`test-package` yields exactly three bundle variables in order —
`first-level-dependency.v1.0.0` with dependencies
[`second-level-dependency.v1.0.1`, `second-level-dependency.v1.0.0`],
then the two second-level bundles with empty dependency lists — and
neither `second-level-dependency.v2.0.0` nor the uninvolved package
appears. -/
theorem closure_concrete_scenario :
    MakeBundleVariables validDepsCatalog validDepsRequired validDepsInstalled
      = .ok validDepsExpected ∧
    sld200 ∉ validDepsExpected.map BundleVariable.bundle ∧
    up100 ∉ validDepsExpected.map BundleVariable.bundle := by
  refine ⟨by decide, by decide, by decide⟩

theorem collectMatches_subset (allBundles : List Bundle) (name : String) :
    ∀ reqs ms, collectMatches allBundles name reqs = .ok ms → ms ⊆ allBundles := by
  intro reqs
  induction reqs with
  | nil =>
    intro ms h
    simp only [collectMatches] at h
    simp [← Except.ok.injEq _ ms |>.mp h]
  | cons r rest ih =>
    intro ms h
    simp only [collectMatches] at h
    by_cases he : (allBundles.filter (fun cb => bundleMatchesConstraint cb r)).isEmpty
    · simp [he] at h
    · simp only [he, if_false, Bool.false_eq_true] at h
      rcases hrec : collectMatches allBundles name rest with e | more
      · rw [hrec] at h; simp at h
      · rw [hrec] at h
        simp only [Except.ok.injEq] at h
        subst h
        intro x hx
        rcases List.mem_append.mp hx with hx | hx
        · exact List.mem_of_mem_filter hx
        · exact ih more hrec hx

theorem dedupById_subset : ∀ (l : List Bundle) (seen : List String), dedupById l seen ⊆ l := by
  intro l
  induction l with
  | nil => intro seen; simp [dedupById]
  | cons x xs ih =>
    intro seen
    simp only [dedupById]
    by_cases hx : BundleVariableID x ∈ seen
    · simp only [hx, if_true]
      exact (ih seen).trans (List.subset_cons_self x xs)
    · simp only [hx, if_false]
      intro y hy
      rcases hy with _ | hy
      · exact List.mem_cons_self x xs
      · exact List.mem_cons_of_mem x (ih _ ‹_›)

theorem dedupById_nodup : ∀ (l : List Bundle) (seen : List String),
    ((dedupById l seen).map BundleVariableID).Nodup ∧
      ∀ x ∈ dedupById l seen, BundleVariableID x ∉ seen := by
  intro l
  induction l with
  | nil => intro seen; simp [dedupById]
  | cons x xs ih =>
    intro seen
    simp only [dedupById]
    by_cases hx : BundleVariableID x ∈ seen
    · simp only [hx, if_true]
      exact ih seen
    · simp only [hx, if_false]
      obtain ⟨hnd, hs⟩ := ih (BundleVariableID x :: seen)
      refine ⟨?_, ?_⟩
      · simp only [List.map_cons, List.nodup_cons]
        refine ⟨?_, hnd⟩
        intro hmem
        rcases List.mem_map.mp hmem with ⟨y, hy, hid⟩
        exact hs y hy (hid ▸ List.mem_cons_self _ _)
      · intro y hy
        rcases hy with _ | hy
        · exact hx
        · exact fun hmem => hs y ‹_› (List.mem_cons_of_mem _ hmem)

theorem insertByVersion_perm (x : Bundle) : ∀ l, (insertByVersion x l).Perm (x :: l) := by
  intro l
  induction l with
  | nil => simp [insertByVersion]
  | cons y ys ih =>
    simp only [insertByVersion]
    by_cases hc : semverLt (versionKey x) (versionKey y)
    · simp only [hc, if_true]
      exact (List.Perm.cons y ih).trans (List.Perm.swap x y ys)
    · simp [hc]

theorem sortByVersion_perm : ∀ l : List Bundle, (sortByVersion l).Perm l := by
  intro l
  induction l with
  | nil => simp [sortByVersion]
  | cons x xs ih =>
    exact (insertByVersion_perm x (sortByVersion xs)).trans (List.Perm.cons x ih)

theorem filterBundleDependencies_subset (allBundles : List Bundle) (b : Bundle)
    (deps : List Bundle) (h : filterBundleDependencies allBundles b = .ok deps) :
    deps ⊆ allBundles := by
  rw [filterBundleDependencies] at h
  rcases hrq : bundleRequiredPackages b with e | reqs
  · simp [hrq] at h
  · simp only [hrq] at h
    rcases hcm : collectMatches allBundles b.Name reqs with e | ms
    · simp [hcm] at h
    · simp only [hcm, Except.ok.injEq] at h
      subst h
      exact ((sortByVersion_perm _).subset.trans (dedupById_subset ms [])).trans
        (collectMatches_subset allBundles b.Name reqs ms hcm)

theorem filterBundleDependencies_nodup (allBundles : List Bundle) (b : Bundle)
    (deps : List Bundle) (h : filterBundleDependencies allBundles b = .ok deps) :
    (deps.map BundleVariableID).Nodup := by
  rw [filterBundleDependencies] at h
  rcases hrq : bundleRequiredPackages b with e | reqs
  · simp [hrq] at h
  · simp only [hrq] at h
    rcases hcm : collectMatches allBundles b.Name reqs with e | ms
    · simp [hcm] at h
    · simp only [hcm, Except.ok.injEq] at h
      subst h
      exact (((sortByVersion_perm (dedupById ms [])).map BundleVariableID).nodup_iff).mpr
        (dedupById_nodup ms []).1

theorem filterBundleDependencies_length (allBundles : List Bundle) (b : Bundle)
    (deps : List Bundle) (h : filterBundleDependencies allBundles b = .ok deps) :
    deps.length ≤ allBundles.length :=
  ((List.Nodup.of_map BundleVariableID
      (filterBundleDependencies_nodup allBundles b deps h)).subperm
    (filterBundleDependencies_subset allBundles b deps h)).length_le

/-- Remaining work measure of the closure walk. -/
def closurePotential (allBundles q : List Bundle) (visited : List String) : Nat :=
  q.length +
    ((idsOf allBundles ++ idsOf q).toFinset \ visited.toFinset).card * (allBundles.length + 1)

theorem closurePotential_init (allBundles seeds : List Bundle) :
    closurePotential allBundles seeds [] = closureFuel allBundles seeds := by
  simp [closurePotential, closureFuel]

theorem goClosure_isSome (allBundles : List Bundle) :
    ∀ (fuel : Nat) (q : List Bundle) (visited : List String) (result : List BundleVariable),
      closurePotential allBundles q visited ≤ fuel →
      (goClosure allBundles fuel q visited result).isSome = true := by
  intro fuel
  induction fuel with
  | zero =>
    intro q visited result h
    have hq : q.length = 0 := by
      simp only [closurePotential] at h
      omega
    rcases q with _ | ⟨x, xs⟩
    · simp [goClosure]
    · simp at hq
  | succ fuel ih =>
    intro q visited result h
    rcases q with _ | ⟨hd, t⟩
    · simp [goClosure]
    · simp only [goClosure]
      by_cases hv : BundleVariableID hd ∈ visited
      · simp only [hv, if_true]
        refine ih t visited result ?_
        have hsub : (idsOf allBundles ++ idsOf t).toFinset \ visited.toFinset ⊆
            (idsOf allBundles ++ idsOf (hd :: t)).toFinset \ visited.toFinset := by
          refine Finset.sdiff_subset_sdiff ?_ (le_refl _)
          intro x hx
          simp only [List.toFinset_append, Finset.mem_union, List.mem_toFinset] at hx ⊢
          rcases hx with hx | hx
          · exact Or.inl hx
          · exact Or.inr (by simp [idsOf] at hx ⊢; exact Or.inr hx)
        have hcard := Finset.card_le_card hsub
        simp only [closurePotential] at h ⊢
        have := Nat.mul_le_mul_right (allBundles.length + 1) hcard
        simp only [List.length_cons] at h
        omega
      · simp only [hv, if_false]
        rcases hfd : filterBundleDependencies allBundles hd with e | deps
        · simp
        · simp only []
          refine ih (t ++ deps) (visited ++ [BundleVariableID hd]) (result ++ [⟨hd, deps⟩]) ?_
          have hdl : deps.length ≤ allBundles.length :=
            filterBundleDependencies_length allBundles hd deps hfd
          have hdepsids : ∀ x ∈ deps, BundleVariableID x ∈ idsOf allBundles := by
            intro x hx
            exact List.mem_map_of_mem BundleVariableID
              (filterBundleDependencies_subset allBundles hd deps hfd hx)
          set S := (idsOf allBundles ++ idsOf (hd :: t)).toFinset \ visited.toFinset with hS
          have hmem : BundleVariableID hd ∈ S := by
            simp only [hS, Finset.mem_sdiff, List.toFinset_append, Finset.mem_union,
              List.mem_toFinset]
            exact ⟨Or.inr (by simp [idsOf]), by simpa using hv⟩
          have hsub : (idsOf allBundles ++ idsOf (t ++ deps)).toFinset \
              (visited ++ [BundleVariableID hd]).toFinset ⊆ S.erase (BundleVariableID hd) := by
            intro x hx
            simp only [Finset.mem_sdiff, List.toFinset_append, Finset.mem_union,
              List.mem_toFinset] at hx
            obtain ⟨hx1, hx2⟩ := hx
            simp only [List.mem_append, List.mem_singleton] at hx2
            push_neg at hx2
            obtain ⟨hxv, hxh⟩ := hx2
            have hx1' : x ∈ idsOf allBundles ∨ x ∈ idsOf (hd :: t) := by
              rcases hx1 with hx | hx
              · exact Or.inl hx
              · simp only [idsOf, List.map_append, List.mem_append] at hx
                rcases hx with hx | hx
                · exact Or.inr (by simp [idsOf] at hx ⊢; exact Or.inr hx)
                · rcases List.mem_map.mp hx with ⟨y, hy, hxy⟩
                  exact Or.inl (hxy ▸ hdepsids y hy)
            refine Finset.mem_erase.mpr ⟨hxh, ?_⟩
            simp only [hS, Finset.mem_sdiff, List.toFinset_append, Finset.mem_union,
              List.mem_toFinset]
            exact ⟨hx1', by simpa using hxv⟩
          have hcard : ((idsOf allBundles ++ idsOf (t ++ deps)).toFinset \
              (visited ++ [BundleVariableID hd]).toFinset).card + 1 ≤ S.card := by
            have h1 := Finset.card_le_card hsub
            have h2 := Finset.card_erase_of_mem hmem
            have h3 : 1 ≤ S.card := Finset.card_pos.mpr ⟨_, hmem⟩
            omega
          simp only [closurePotential, ← hS] at h ⊢
          simp only [List.length_cons, List.length_append] at h ⊢
          have hmul := Nat.mul_le_mul_right (allBundles.length + 1) hcard
          rw [Nat.add_mul, Nat.one_mul] at hmul
          omega

theorem make_spec (allBundles : List Bundle) (req : List RequiredPackageVariable)
    (inst : List InstalledPackageVariable) :
    goClosure allBundles (closureFuel allBundles (seedBundles req inst))
        (seedBundles req inst) [] []
      = some (MakeBundleVariables allBundles req inst) := by
  have hs := goClosure_isSome allBundles (closureFuel allBundles (seedBundles req inst))
    (seedBundles req inst) [] [] (le_of_eq (closurePotential_init allBundles _))
  rcases Option.isSome_iff_exists.mp hs with ⟨r, hr⟩
  rw [hr]
  simp [MakeBundleVariables, hr]

/-- Identifier list of a bundle-variable list. -/
def varIds (l : List BundleVariable) : List String :=
  l.map (fun bv => BundleVariableID bv.bundle)

theorem goClosure_ok_spec (allBundles : List Bundle) :
    ∀ (fuel : Nat) (q : List Bundle) (visited : List String) (result : List BundleVariable)
      (out : List BundleVariable),
      visited = varIds result →
      visited.Nodup →
      (∀ bv ∈ result, ∀ d ∈ bv.dependencies,
        BundleVariableID d ∈ visited ∨ BundleVariableID d ∈ idsOf q) →
      (∀ bv ∈ result, filterBundleDependencies allBundles bv.bundle = .ok bv.dependencies) →
      goClosure allBundles fuel q visited result = some (.ok out) →
      (∃ s, out = result ++ s) ∧
      (varIds out).Nodup ∧
      (∀ b ∈ q, BundleVariableID b ∈ varIds out) ∧
      (∀ bv ∈ out, ∀ d ∈ bv.dependencies, BundleVariableID d ∈ varIds out) ∧
      (∀ bv ∈ out, filterBundleDependencies allBundles bv.bundle = .ok bv.dependencies) := by
  intro fuel
  induction fuel with
  | zero =>
    intro q visited result out h1 h2 h3 h4 hg
    rcases q with _ | ⟨hd, t⟩
    · simp only [goClosure, Option.some.injEq, Except.ok.injEq] at hg
      subst hg
      refine ⟨⟨[], by simp⟩, h1 ▸ h2, by simp, ?_, h4⟩
      intro bv hbv d hd
      rcases h3 bv hbv d hd with hh | hh
      · exact h1 ▸ hh
      · simp [idsOf] at hh
    · simp [goClosure] at hg
  | succ fuel ih =>
    intro q visited result out h1 h2 h3 h4 hg
    rcases q with _ | ⟨hd, t⟩
    · simp only [goClosure, Option.some.injEq, Except.ok.injEq] at hg
      subst hg
      refine ⟨⟨[], by simp⟩, h1 ▸ h2, by simp, ?_, h4⟩
      intro bv hbv d hdm
      rcases h3 bv hbv d hdm with hh | hh
      · exact h1 ▸ hh
      · simp [idsOf] at hh
    · simp only [goClosure] at hg
      by_cases hv : BundleVariableID hd ∈ visited
      · simp only [hv, if_true] at hg
        have h3' : ∀ bv ∈ result, ∀ d ∈ bv.dependencies,
            BundleVariableID d ∈ visited ∨ BundleVariableID d ∈ idsOf t := by
          intro bv hbv d hdm
          rcases h3 bv hbv d hdm with hh | hh
          · exact Or.inl hh
          · simp only [idsOf, List.map_cons, List.mem_cons] at hh
            rcases hh with hh | hh
            · exact Or.inl (hh ▸ hv)
            · exact Or.inr hh
        obtain ⟨⟨s, hs⟩, hnd, hq, hdeps, hfd⟩ := ih t visited result out h1 h2 h3' h4 hg
        refine ⟨⟨s, hs⟩, hnd, ?_, hdeps, hfd⟩
        intro b hb
        rcases List.mem_cons.mp hb with hb | hb
        · subst hb
          have hin : BundleVariableID b ∈ varIds result := h1 ▸ hv
          rw [hs, varIds, List.map_append]
          exact List.mem_append_left _ hin
        · exact hq b hb
      · simp only [hv, if_false] at hg
        rcases hfd : filterBundleDependencies allBundles hd with e | deps
        · rw [hfd] at hg
          simp at hg
        · rw [hfd] at hg
          simp only at hg
          have h1' : visited ++ [BundleVariableID hd] = varIds (result ++ [⟨hd, deps⟩]) := by
            rw [varIds, List.map_append, ← varIds, ← h1]
            rfl
          have h2' : (visited ++ [BundleVariableID hd]).Nodup := by
            rw [List.nodup_append]
            exact ⟨h2, List.nodup_singleton _, by simpa using hv⟩
          have h3' : ∀ bv ∈ result ++ [⟨hd, deps⟩], ∀ d ∈ bv.dependencies,
              BundleVariableID d ∈ visited ++ [BundleVariableID hd] ∨
              BundleVariableID d ∈ idsOf (t ++ deps) := by
            intro bv hbv d hdm
            rcases List.mem_append.mp hbv with hbv | hbv
            · rcases h3 bv hbv d hdm with hh | hh
              · exact Or.inl (List.mem_append_left _ hh)
              · simp only [idsOf, List.map_cons, List.mem_cons] at hh
                rcases hh with hh | hh
                · exact Or.inl (List.mem_append_right _ (by simp [hh]))
                · refine Or.inr ?_
                  simp only [idsOf, List.map_append, List.mem_append]
                  exact Or.inl hh
            · have hbv' : bv = ⟨hd, deps⟩ := by simpa using hbv
              subst hbv'
              exact Or.inr (by
                simp only [idsOf, List.map_append, List.mem_append]
                exact Or.inr (List.mem_map_of_mem _ hdm))
          have h4' : ∀ bv ∈ result ++ [⟨hd, deps⟩],
              filterBundleDependencies allBundles bv.bundle = .ok bv.dependencies := by
            intro bv hbv
            rcases List.mem_append.mp hbv with hbv | hbv
            · exact h4 bv hbv
            · have hbv' : bv = ⟨hd, deps⟩ := by simpa using hbv
              subst hbv'
              exact hfd
          obtain ⟨⟨s, hs⟩, hnd, hq, hdeps, hfd'⟩ :=
            ih (t ++ deps) (visited ++ [BundleVariableID hd]) (result ++ [⟨hd, deps⟩]) out
              h1' h2' h3' h4' hg
          have hpre : ∃ s', out = result ++ s' := by
            exact ⟨⟨hd, deps⟩ :: s, by rw [hs]; simp⟩
          refine ⟨hpre, hnd, ?_, hdeps, hfd'⟩
          intro b hb
          rcases List.mem_cons.mp hb with hb | hb
          · subst hb
            rw [hs]
            simp [varIds]
          · exact hq b (List.mem_append_left _ hb)

/-- C2: in every successful closure run, the output bundle-variable
identifiers are pairwise distinct, every candidate of every input
package variable and every dependency of every output variable has a
(then unique) bundle variable in the output, and every output
variable's dependency list is the one computed from its own
declarations by `filterBundleDependencies` — so a bundle reached
through several paths, or seeded both as required and installed, owns
exactly one variable with one dependency list. -/
theorem closure_no_dangling_refs (allBundles : List Bundle)
    (req : List RequiredPackageVariable) (inst : List InstalledPackageVariable)
    (out : List BundleVariable)
    (h : MakeBundleVariables allBundles req inst = .ok out) :
    (varIds out).Nodup ∧
    (∀ pv ∈ req, ∀ c ∈ pv.bundles, BundleVariableID c ∈ varIds out) ∧
    (∀ pv ∈ inst, ∀ c ∈ pv.bundles, BundleVariableID c ∈ varIds out) ∧
    (∀ bv ∈ out, ∀ d ∈ bv.dependencies, BundleVariableID d ∈ varIds out) ∧
    (∀ bv ∈ out, filterBundleDependencies allBundles bv.bundle = .ok bv.dependencies) := by
  have hgo := make_spec allBundles req inst
  rw [h] at hgo
  obtain ⟨_, hnd, hq, hdeps, hfd⟩ :=
    goClosure_ok_spec allBundles (closureFuel allBundles (seedBundles req inst))
      (seedBundles req inst) [] [] out rfl List.nodup_nil (by simp) (by simp) hgo
  refine ⟨hnd, ?_, ?_, hdeps, hfd⟩
  · intro pv hpv c hc
    refine hq c ?_
    simp only [seedBundles, List.mem_append]
    exact Or.inl (List.mem_flatten.mpr ⟨pv.bundles, List.mem_map_of_mem _ hpv, hc⟩)
  · intro pv hpv c hc
    refine hq c ?_
    simp only [seedBundles, List.mem_append]
    exact Or.inr (List.mem_flatten.mpr ⟨pv.bundles, List.mem_map_of_mem _ hpv, hc⟩)

/-- Witness for C2 at the concrete section-8 scenario. -/
theorem closure_no_dangling_refs_witness :
    (varIds validDepsExpected).Nodup ∧
    (∀ pv ∈ validDepsRequired, ∀ c ∈ pv.bundles,
      BundleVariableID c ∈ varIds validDepsExpected) ∧
    (∀ pv ∈ validDepsInstalled, ∀ c ∈ pv.bundles,
      BundleVariableID c ∈ varIds validDepsExpected) ∧
    (∀ bv ∈ validDepsExpected, ∀ d ∈ bv.dependencies,
      BundleVariableID d ∈ varIds validDepsExpected) ∧
    (∀ bv ∈ validDepsExpected,
      filterBundleDependencies validDepsCatalog bv.bundle = .ok bv.dependencies) :=
  closure_no_dangling_refs validDepsCatalog validDepsRequired validDepsInstalled
    validDepsExpected (by decide)

/-- C7: every bundle variable the closure builder records for a bundle
that declares no required packages carries the empty dependency list. -/
theorem closure_records_empty_deps (allBundles : List Bundle)
    (req : List RequiredPackageVariable) (inst : List InstalledPackageVariable)
    (out : List BundleVariable) (bv : BundleVariable)
    (h : MakeBundleVariables allBundles req inst = .ok out)
    (hbv : bv ∈ out)
    (hreq : bundleRequiredPackages bv.bundle = .ok []) :
    bv.dependencies = [] := by
  have hgo := make_spec allBundles req inst
  rw [h] at hgo
  obtain ⟨_, _, _, _, hfd⟩ :=
    goClosure_ok_spec allBundles (closureFuel allBundles (seedBundles req inst))
      (seedBundles req inst) [] [] out rfl List.nodup_nil (by simp) (by simp) hgo
  have hdep := hfd bv hbv
  rw [filterBundleDependencies] at hdep
  simp only [hreq] at hdep
  simp only [collectMatches, dedupById, sortByVersion, Except.ok.injEq] at hdep
  exact hdep.symm

/-- Witness for C7: in the section-8 scenario the leaf bundle
`second-level-dependency.v1.0.1` is recorded with the empty dependency
list. -/
theorem closure_records_empty_deps_witness :
    BundleVariable.dependencies ⟨sld101, []⟩ = [] :=
  closure_records_empty_deps validDepsCatalog validDepsRequired validDepsInstalled
    validDepsExpected ⟨sld101, []⟩ (by decide) (by decide) (by decide)

theorem strContains_parts (pre mid suf : String) :
    strContains (pre ++ mid ++ suf) mid = true := by
  have h : mid.data <:+: (pre ++ mid ++ suf).data :=
    ⟨pre.data, suf.data, by simp [show ∀ s t : String, (s ++ t).data = s.data ++ t.data
      from fun s t => rfl]⟩
  simp only [strContains, decide_eq_true_eq]
  exact h

theorem goClosure_error_spec (allBundles : List Bundle) :
    ∀ (fuel : Nat) (q : List Bundle) (visited : List String) (result : List BundleVariable)
      (e : String),
      goClosure allBundles fuel q visited result = some (.error e) →
      ∃ b msg, filterBundleDependencies allBundles b = .error msg ∧ e = depWrap b msg := by
  intro fuel
  induction fuel with
  | zero =>
    intro q visited result e hg
    rcases q with _ | ⟨hd, t⟩ <;> simp [goClosure] at hg
  | succ fuel ih =>
    intro q visited result e hg
    rcases q with _ | ⟨hd, t⟩
    · simp [goClosure] at hg
    · simp only [goClosure] at hg
      by_cases hv : BundleVariableID hd ∈ visited
      · simp only [hv, if_true] at hg
        exact ih t visited result e hg
      · simp only [hv, if_false] at hg
        rcases hfd : filterBundleDependencies allBundles hd with e' | deps
        · rw [hfd] at hg
          simp only [Option.some.injEq, Except.error.injEq] at hg
          exact ⟨hd, e', hfd, hg.symm⟩
        · rw [hfd] at hg
          exact ih _ _ _ e hg

/-- Amended C3: whenever the closure builder fails — in particular when
some walked bundle's required-package constraint matches zero catalog
bundles — no bundle variables are returned (the error excludes any
partial result), and the error message is the dependency wrapper naming
the failing bundle's full `<catalog>-<package>-<bundle>` identifier
(and, inside, the bundle's name); it does not name the unmet required
package. -/
theorem closure_error_names_bundle_id (allBundles : List Bundle)
    (req : List RequiredPackageVariable) (inst : List InstalledPackageVariable) (e : String)
    (h : MakeBundleVariables allBundles req inst = .error e) :
    ∃ b msg, filterBundleDependencies allBundles b = .error msg ∧
      e = depWrap b msg ∧
      strContains e (BundleVariableID b) = true := by
  have hgo := make_spec allBundles req inst
  rw [h] at hgo
  obtain ⟨b, msg, hfd, he⟩ :=
    goClosure_error_spec allBundles (closureFuel allBundles (seedBundles req inst))
      (seedBundles req inst) [] [] e hgo
  refine ⟨b, msg, hfd, he, ?_⟩
  subst he
  have hsplit : depWrap b msg =
      "could not determine dependencies for bundle with id \"" ++ BundleVariableID b ++
        ("\": " ++ msg) := by
    simp [depWrap, String.append_assoc]
  rw [hsplit]
  exact strContains_parts _ _ _

/-- Witness for the amended C3 at the non-existent-dependencies
catalog. -/
theorem closure_error_names_bundle_id_witness :
    ∃ b msg, filterBundleDependencies missingDepCatalog b = .error msg ∧
      missingDepMsg = depWrap b msg ∧
      strContains missingDepMsg (BundleVariableID b) = true :=
  closure_error_names_bundle_id missingDepCatalog missingDepRequired [] missingDepMsg
    (by decide)

/-- Counterexample to C3 as stated: on the non-existent-dependencies
catalog the builder fails (with no bundle variables), but the error
message does not contain the name of the unmet required package
`first-level-dependency`. -/
theorem closure_error_counterexample :
    MakeBundleVariables missingDepCatalog missingDepRequired [] = .error missingDepMsg ∧
    strContains missingDepMsg "first-level-dependency" = false :=
  ⟨by decide, by decide⟩

theorem semverLt_irrefl (a : SemVer) : semverLt a a = false := by
  simp [semverLt]

theorem semverLt_asymm (a b : SemVer) (h : semverLt a b = true) : semverLt b a = false := by
  rw [Bool.eq_false_iff]
  intro h2
  simp only [semverLt, Bool.or_eq_true, Bool.and_eq_true, decide_eq_true_eq] at h h2
  omega

theorem semverLt_choice (a b c : SemVer) (h : semverLt a c = true) :
    semverLt a b = true ∨ semverLt b c = true := by
  simp only [semverLt, Bool.or_eq_true, Bool.and_eq_true, decide_eq_true_eq] at h ⊢
  omega

theorem semverLt_false_trans (a b c : SemVer) (h1 : semverLt a b = false)
    (h2 : semverLt b c = false) : semverLt a c = false := by
  rw [Bool.eq_false_iff] at h1 h2 ⊢
  intro h
  rcases semverLt_choice a b c h with hc | hc
  · exact h1 hc
  · exact h2 hc

/-- The version-descending-with-ties order carried by the dependency
sort. -/
def versionGE (x y : Bundle) : Prop :=
  semverLt (versionKey x) (versionKey y) = false

theorem insertByVersion_pairwise (x : Bundle) :
    ∀ l, l.Pairwise versionGE → (insertByVersion x l).Pairwise versionGE := by
  intro l
  induction l with
  | nil => intro _; simp [insertByVersion, List.pairwise_singleton]
  | cons y ys ih =>
    intro h
    rcases List.pairwise_cons.mp h with ⟨hy, hys⟩
    simp only [insertByVersion]
    by_cases hc : semverLt (versionKey x) (versionKey y)
    · simp only [hc, if_true]
      refine List.pairwise_cons.mpr ⟨?_, ih hys⟩
      intro z hz
      rcases List.mem_cons.mp ((insertByVersion_perm x ys).mem_iff.mp hz) with hz | hz
      · subst hz
        exact semverLt_asymm _ _ hc
      · exact hy z hz
    · simp only [hc, if_false]
      refine List.pairwise_cons.mpr ⟨?_, h⟩
      intro z hz
      rcases List.mem_cons.mp hz with hz | hz
      · subst hz
        exact Bool.eq_false_iff.mpr hc
      · exact semverLt_false_trans _ _ _ (Bool.eq_false_iff.mpr hc) (hy z hz)

theorem sortByVersion_pairwise : ∀ l : List Bundle, (sortByVersion l).Pairwise versionGE := by
  intro l
  induction l with
  | nil => simp [sortByVersion]
  | cons x xs ih => exact insertByVersion_pairwise x (sortByVersion xs) ih

theorem insertByVersion_filter_key (x : Bundle) (v : SemVer) :
    ∀ l, (insertByVersion x l).filter (fun z => decide (versionKey z = v)) =
      (x :: l).filter (fun z => decide (versionKey z = v)) := by
  intro l
  induction l with
  | nil => rfl
  | cons y ys ih =>
    simp only [insertByVersion]
    by_cases hc : semverLt (versionKey x) (versionKey y)
    · simp only [hc, if_true]
      by_cases hx : versionKey x = v
      · have hy : versionKey y ≠ v := by
          intro hyv
          rw [hx, hyv, semverLt_irrefl v] at hc
          exact Bool.false_ne_true hc
        simp only [List.filter_cons, ih]
        simp [hx, hy]
      · simp only [List.filter_cons, ih]
        simp [hx]
    · simp [hc]

theorem sortByVersion_filter_key (v : SemVer) :
    ∀ l : List Bundle, (sortByVersion l).filter (fun z => decide (versionKey z = v)) =
      l.filter (fun z => decide (versionKey z = v)) := by
  intro l
  induction l with
  | nil => rfl
  | cons x xs ih =>
    rw [sortByVersion, insertByVersion_filter_key]
    simp only [List.filter_cons, ih]

theorem collectMatches_single (allBundles : List Bundle) (name : String) (r : PackageRequired)
    (ms : List Bundle) (h : collectMatches allBundles name [r] = .ok ms) :
    ms = allBundles.filter (fun cb => bundleMatchesConstraint cb r) := by
  simp only [collectMatches] at h
  by_cases he : (allBundles.filter (fun cb => bundleMatchesConstraint cb r)).isEmpty
  · simp [he] at h
  · simp only [he, Bool.false_eq_true, if_false, Except.ok.injEq] at h
    simpa using h.symm

/-- C6: every successfully resolved dependency list is ordered by
non-increasing parsed version, is deduplicated by bundle identifier,
and is a stable sort of the constraint-by-constraint, catalog-scan-order
match list: for every version value the sub-list with that version
equals the corresponding sub-list of the deduplicated match list, and
for a single declared constraint the match list is exactly the
catalog-scan-order filter. -/
theorem deps_sorted_dedup_stable (allBundles : List Bundle) (b : Bundle) (deps : List Bundle)
    (h : filterBundleDependencies allBundles b = .ok deps) :
    deps.Pairwise versionGE ∧
    (deps.map BundleVariableID).Nodup ∧
    (∀ reqs ms, bundleRequiredPackages b = .ok reqs →
      collectMatches allBundles b.Name reqs = .ok ms →
      ∀ v, deps.filter (fun z => decide (versionKey z = v)) =
        (dedupById ms []).filter (fun z => decide (versionKey z = v))) ∧
    (∀ r ms, bundleRequiredPackages b = .ok [r] →
      collectMatches allBundles b.Name [r] = .ok ms →
      ms = allBundles.filter (fun cb => bundleMatchesConstraint cb r)) := by
  refine ⟨?_, filterBundleDependencies_nodup allBundles b deps h, ?_, ?_⟩
  · rw [filterBundleDependencies] at h
    rcases hrq : bundleRequiredPackages b with e | reqs
    · simp [hrq] at h
    · simp only [hrq] at h
      rcases hcm : collectMatches allBundles b.Name reqs with e | ms
      · simp [hcm] at h
      · simp only [hcm, Except.ok.injEq] at h
        subst h
        exact sortByVersion_pairwise _
  · intro reqs ms hreq hcm v
    rw [filterBundleDependencies] at h
    simp only [hreq] at h
    simp only [hcm, Except.ok.injEq] at h
    subst h
    exact sortByVersion_filter_key v (dedupById ms [])
  · intro r ms hreq hcm
    exact collectMatches_single allBundles b.Name r ms hcm

/-- Witness for C6 at the section-8 scenario: the dependency list of
`first-level-dependency.v1.0.0` is `[v1.0.1, v1.0.0]`. -/
theorem deps_sorted_dedup_stable_witness :
    ([sld101, sld100] : List Bundle).Pairwise versionGE ∧
    (([sld101, sld100] : List Bundle).map BundleVariableID).Nodup ∧
    (∀ reqs ms, bundleRequiredPackages fld100 = .ok reqs →
      collectMatches validDepsCatalog fld100.Name reqs = .ok ms →
      ∀ v, ([sld101, sld100] : List Bundle).filter (fun z => decide (versionKey z = v)) =
        (dedupById ms []).filter (fun z => decide (versionKey z = v))) ∧
    (∀ r ms, bundleRequiredPackages fld100 = .ok [r] →
      collectMatches validDepsCatalog fld100.Name [r] = .ok ms →
      ms = validDepsCatalog.filter (fun cb => bundleMatchesConstraint cb r)) :=
  deps_sorted_dedup_stable validDepsCatalog fld100 [sld101, sld100] (by decide)

/-- Remove every required-GVK property of a bundle, leaving everything
else unchanged. -/
def stripGVK (b : Bundle) : Bundle :=
  { b with Properties := b.Properties.filter (fun p => p.type != TypeGVKRequired) }

/-- Strip required-GVK properties of every candidate of a
required-package variable. -/
def stripReqVar (v : RequiredPackageVariable) : RequiredPackageVariable :=
  { v with bundles := v.bundles.map stripGVK }

/-- Strip required-GVK properties of every candidate of an
installed-package variable. -/
def stripInstVar (v : InstalledPackageVariable) : InstalledPackageVariable :=
  { v with bundles := v.bundles.map stripGVK }

/-- Strip required-GVK properties throughout a bundle variable. -/
def stripBV (bv : BundleVariable) : BundleVariable :=
  ⟨stripGVK bv.bundle, bv.dependencies.map stripGVK⟩

theorem stripGVK_filter (b : Bundle) (t : String) (h : t ≠ TypeGVKRequired) :
    (stripGVK b).Properties.filter (fun p => p.type == t) =
      b.Properties.filter (fun p => p.type == t) := by
  simp only [stripGVK]
  rw [List.filter_filter]
  refine List.filter_congr ?_
  intro x _
  by_cases hx : x.type == t
  · have hxt : x.type = t := by simpa using hx
    have : (x.type != TypeGVKRequired) = true := by
      simp [hxt, h]
    simp [hx, this]
  · simp [hx]

theorem stripGVK_id (b : Bundle) : BundleVariableID (stripGVK b) = BundleVariableID b := rfl

theorem bundleVersion_char (b : Bundle) :
    bundleVersion b =
      match pkgOut b with
      | .error e => .error e
      | .ok p =>
        match parseSemVer p.version with
        | .error pe =>
          .error ("could not parse semver \"" ++ p.version ++ "\" for bundle \""
            ++ b.Name ++ "\": " ++ pe)
        | .ok v => .ok v := by
  rw [bundleVersion, Version_fresh b initCache (Or.inl rfl) rfl rfl]
  rcases hpo : pkgOut b with e | p
  · simp
  · rcases hpv : parseSemVer p.version with pe | v <;> simp [hpv]

theorem bundleVersion_strip (b : Bundle) : bundleVersion (stripGVK b) = bundleVersion b := by
  have hprops : pkgProps (stripGVK b) = pkgProps b :=
    stripGVK_filter b TypePackage (by decide)
  have hout : pkgOut (stripGVK b) = pkgOut b := by
    rw [pkgOut, pkgOut, hprops]
  have hname : (stripGVK b).Name = b.Name := rfl
  rw [bundleVersion_char, bundleVersion_char, hout, hname]

theorem bundleRequiredPackages_char (b : Bundle) :
    bundleRequiredPackages b =
      match reqRawOut b with
      | .error e =>
        .error ("error determining bundle required packages for bundle \"" ++ b.Name
          ++ "\": " ++ e)
      | .ok rs =>
        match (parseReqRanges b.Name rs).2 with
        | .error e => .error e
        | .ok rs₂ => .ok rs₂ := by
  rw [bundleRequiredPackages, RequiredPackages_fresh b initCache (Or.inl rfl) rfl]
  rcases hro : reqRawOut b with e | rs
  · simp
  · rcases hpr : parseReqRanges b.Name rs with ⟨n, res⟩
    rcases res with e | rs₂ <;> simp [hpr]

theorem bundleRequiredPackages_strip (b : Bundle) :
    bundleRequiredPackages (stripGVK b) = bundleRequiredPackages b := by
  have hprops : reqProps (stripGVK b) = reqProps b :=
    stripGVK_filter b TypePackageRequired (by decide)
  have hout : reqRawOut (stripGVK b) = reqRawOut b := by
    rw [reqRawOut, reqRawOut, hprops]
  have hname : (stripGVK b).Name = b.Name := rfl
  rw [bundleRequiredPackages_char, bundleRequiredPackages_char, hout, hname]

theorem versionKey_strip (b : Bundle) : versionKey (stripGVK b) = versionKey b := by
  rw [versionKey, versionKey, bundleVersion_strip]

theorem bundleMatchesConstraint_strip (cb : Bundle) (r : PackageRequired) :
    bundleMatchesConstraint (stripGVK cb) r = bundleMatchesConstraint cb r := by
  rw [bundleMatchesConstraint, bundleMatchesConstraint, bundleVersion_strip]
  rfl

theorem collectMatches_strip (allBundles : List Bundle) (name : String) :
    ∀ reqs, collectMatches (allBundles.map stripGVK) name reqs =
      (collectMatches allBundles name reqs).map (List.map stripGVK) := by
  intro reqs
  induction reqs with
  | nil => rfl
  | cons r rest ih =>
    simp only [collectMatches]
    have hfil : (allBundles.map stripGVK).filter (fun cb => bundleMatchesConstraint cb r) =
        (allBundles.filter (fun cb => bundleMatchesConstraint cb r)).map stripGVK := by
      rw [List.filter_map]
      refine congrArg _ (List.filter_congr ?_)
      intro x _
      simp [Function.comp, bundleMatchesConstraint_strip]
    rw [hfil]
    by_cases he : (allBundles.filter (fun cb => bundleMatchesConstraint cb r)).isEmpty
    · simp [he, List.isEmpty_iff.mp he, Except.map]
    · have he' : ((allBundles.filter (fun cb => bundleMatchesConstraint cb r)).map
          stripGVK).isEmpty = false := by
        rcases hl : allBundles.filter (fun cb => bundleMatchesConstraint cb r) with _ | ⟨a, l⟩
        · rw [hl] at he; simp at he
        · simp
      rw [he']
      simp only [Bool.false_eq_true, if_false]
      have he2 : (allBundles.filter (fun cb => bundleMatchesConstraint cb r)).isEmpty
          = false := by
        simpa using he
      rw [he2]
      simp only [Bool.false_eq_true, if_false]
      rw [ih]
      rcases collectMatches allBundles name rest with e | more <;> simp [Except.map]

theorem dedupById_strip : ∀ (l : List Bundle) (seen : List String),
    dedupById (l.map stripGVK) seen = (dedupById l seen).map stripGVK := by
  intro l
  induction l with
  | nil => intro seen; rfl
  | cons x xs ih =>
    intro seen
    simp only [List.map_cons, dedupById, stripGVK_id]
    by_cases hx : BundleVariableID x ∈ seen
    · simp [hx, ih]
    · simp [hx, ih]

theorem insertByVersion_strip (x : Bundle) : ∀ l,
    insertByVersion (stripGVK x) (l.map stripGVK) = (insertByVersion x l).map stripGVK := by
  intro l
  induction l with
  | nil => rfl
  | cons y ys ih =>
    simp only [List.map_cons, insertByVersion, versionKey_strip]
    by_cases hc : semverLt (versionKey x) (versionKey y)
    · simp [hc, ih]
    · simp [hc]

theorem sortByVersion_strip : ∀ l : List Bundle,
    sortByVersion (l.map stripGVK) = (sortByVersion l).map stripGVK := by
  intro l
  induction l with
  | nil => rfl
  | cons x xs ih =>
    simp only [List.map_cons, sortByVersion, ih, insertByVersion_strip]

theorem filterBundleDependencies_strip (allBundles : List Bundle) (b : Bundle) :
    filterBundleDependencies (allBundles.map stripGVK) (stripGVK b) =
      (filterBundleDependencies allBundles b).map (List.map stripGVK) := by
  rw [filterBundleDependencies, filterBundleDependencies, bundleRequiredPackages_strip]
  rcases hrq : bundleRequiredPackages b with e | reqs
  · simp [hrq, Except.map]
  · simp only [hrq]
    have hname : (stripGVK b).Name = b.Name := rfl
    rw [hname, collectMatches_strip]
    rcases hcm : collectMatches allBundles b.Name reqs with e | ms
    · simp [hcm, Except.map]
    · simp [hcm, Except.map, dedupById_strip, sortByVersion_strip]

theorem goClosure_strip (allBundles : List Bundle) :
    ∀ (fuel : Nat) (q : List Bundle) (visited : List String) (result : List BundleVariable),
      goClosure (allBundles.map stripGVK) fuel (q.map stripGVK) visited (result.map stripBV)
        = (goClosure allBundles fuel q visited result).map (Except.map (List.map stripBV)) := by
  intro fuel
  induction fuel with
  | zero =>
    intro q visited result
    rcases q with _ | ⟨hd, t⟩ <;> simp [goClosure, Except.map]
  | succ fuel ih =>
    intro q visited result
    rcases q with _ | ⟨hd, t⟩
    · simp [goClosure, Except.map]
    · simp only [List.map_cons, goClosure, stripGVK_id]
      by_cases hv : BundleVariableID hd ∈ visited
      · simp only [hv, if_true]
        exact ih t visited result
      · simp only [hv, if_false]
        rw [filterBundleDependencies_strip]
        rcases hfd : filterBundleDependencies allBundles hd with e | deps
        · simp only [hfd, Except.map]
          have hw : depWrap (stripGVK hd) e = depWrap hd e := rfl
          rw [hw]
          simp [Except.map]
        · simp only [hfd, Except.map]
          have hrec := ih (t ++ deps) (visited ++ [BundleVariableID hd])
            (result ++ [⟨hd, deps⟩])
          simp only [List.map_append, List.map_cons, List.map_nil] at hrec
          have hbv : stripBV ⟨hd, deps⟩ = ⟨stripGVK hd, deps.map stripGVK⟩ := rfl
          rw [hbv] at hrec
          exact hrec

theorem flatten_map_map (f : Bundle → Bundle) :
    ∀ l : List (List Bundle), (l.map (List.map f)).flatten = l.flatten.map f := by
  intro l
  induction l with
  | nil => rfl
  | cons x xs ih => simp only [List.map_cons, List.flatten_cons, List.map_append, ih]

theorem seedBundles_strip (req : List RequiredPackageVariable)
    (inst : List InstalledPackageVariable) :
    seedBundles (req.map stripReqVar) (inst.map stripInstVar)
      = (seedBundles req inst).map stripGVK := by
  simp only [seedBundles, List.map_append]
  have h1 : (req.map stripReqVar).map (fun v => v.bundles)
      = (req.map (fun v => v.bundles)).map (List.map stripGVK) := by
    simp only [List.map_map]
    congr 1
  have h2 : (inst.map stripInstVar).map (fun v => v.bundles)
      = (inst.map (fun v => v.bundles)).map (List.map stripGVK) := by
    simp only [List.map_map]
    congr 1
  rw [h1, h2, flatten_map_map, flatten_map_map]

theorem idsOf_strip (l : List Bundle) : idsOf (l.map stripGVK) = idsOf l := by
  simp only [idsOf, List.map_map]
  rfl

theorem closureFuel_strip (allBundles seeds : List Bundle) :
    closureFuel (allBundles.map stripGVK) (seeds.map stripGVK) = closureFuel allBundles seeds := by
  simp [closureFuel, idsOf_strip]

theorem make_strip (allBundles : List Bundle) (req : List RequiredPackageVariable)
    (inst : List InstalledPackageVariable) :
    MakeBundleVariables (allBundles.map stripGVK) (req.map stripReqVar) (inst.map stripInstVar)
      = (MakeBundleVariables allBundles req inst).map (List.map stripBV) := by
  have hseeds := seedBundles_strip req inst
  simp only [MakeBundleVariables, hseeds, closureFuel_strip]
  have hgo := goClosure_strip allBundles (closureFuel allBundles (seedBundles req inst))
    (seedBundles req inst) [] []
  simp only [List.map_nil] at hgo
  rw [hgo]
  rcases goClosure allBundles (closureFuel allBundles (seedBundles req inst))
      (seedBundles req inst) [] [] with _ | r <;> simp [Option.map, Except.map]

/-- C8: required-GVK declarations never induce dependency edges.
Stripping every `olm.gvk.required` property from the catalog and from
all input candidates leaves the closure builder's output unchanged
(same variables, same order, same dependency lists, modulo the stripped
payloads themselves), for every input; and on the concrete
variable-source catalog — whose bundles do declare required GVKs that
bundles 7–11 would satisfy — the output is exactly the seven
package-required-reachable bundle variables, with bundles 7–11 absent. -/
theorem requiredGVK_no_edges :
    (∀ (allBundles : List Bundle) (req : List RequiredPackageVariable)
        (inst : List InstalledPackageVariable),
      MakeBundleVariables (allBundles.map stripGVK) (req.map stripReqVar)
          (inst.map stripInstVar)
        = (MakeBundleVariables allBundles req inst).map (List.map stripBV)) ∧
    (MakeBundleVariables gvkCatalog gvkRequired []).map (fun out => varIds out)
      = .ok gvkExpectedIds ∧
    "fake-catalog-some-other-package-bundle-7" ∉ gvkExpectedIds ∧
    "fake-catalog-some-other-package-bundle-8" ∉ gvkExpectedIds ∧
    "fake-catalog-another-package-bundle-9" ∉ gvkExpectedIds ∧
    "fake-catalog-bar-package-bundle-10" ∉ gvkExpectedIds ∧
    "fake-catalog-bar-package-bundle-11" ∉ gvkExpectedIds :=
  ⟨make_strip, by decide, by decide, by decide, by decide, by decide, by decide⟩
